import Mathlib

/-!
Shallow embedding of the digicon event-registration storage layer: the
flat-file backend (`DatabaseManager`, src/unnamed/part_002) and the
document-store backend (`MongoStore`, src/unnamed/part_000), together with
the HTTP-handler fragments of src/app.js that the claims mention.

JS strings are `String`, JS numbers are `ℚ` (every JSON number is an exact
binary fraction, and the only arithmetic the code performs on them —
`Math.max`, comparison, integer increment — is exact), arrays are `List`,
and nullable fields are `Option`.  Asynchronous storage calls are modeled
as pure state transformers on the persisted document; the serialized
semantics of the Mongo transaction (majority read/write concern, primary
reads) and of the file critical section (re-read under the exclusive lock)
make each operation atomic on the persisted state.
-/

namespace Digicon

/-- Whitespace characters recognized by the JS `trim`/`parseInt` models. -/
def jsIsWs (c : Char) : Bool :=
  c = ' ' || c = '\t' || c = '\n' || c = '\r' || c = '\x0b' || c = '\x0c'

/-- Drop whitespace from both ends of a character list. -/
def trimChars (l : List Char) : List Char :=
  ((l.dropWhile jsIsWs).reverse.dropWhile jsIsWs).reverse

/-- Model of `String.prototype.trim` (`String(x).trim()` in both backends). -/
def jsTrim (s : String) : String := ⟨trimChars s.data⟩

/-- Model of `Math.max` on two numbers (used as `Math.max(1, parsed)`). -/
def jsMax (a b : ℚ) : ℚ := if a ≤ b then b else a

/-- Value of a list of decimal digit characters. -/
def digitsToNat (l : List Char) : Nat :=
  l.foldl (fun a c => a * 10 + (c.toNat - ('0').toNat)) 0

/-- Model of `parseInt(s, 10) || 0`: skip leading whitespace, read an
optional sign and a maximal run of decimal digits; no digits (`NaN`) and a
parsed `0` both collapse to `0` through `|| 0`. -/
def jsParseIntOr0 (s : String) : Int :=
  let l := s.data.dropWhile jsIsWs
  match l with
  | '-' :: rest =>
    let ds := rest.takeWhile (fun c => c.isDigit)
    if ds.isEmpty then 0 else -(digitsToNat ds : Int)
  | '+' :: rest =>
    let ds := rest.takeWhile (fun c => c.isDigit)
    if ds.isEmpty then 0 else (digitsToNat ds : Int)
  | _ =>
    let ds := l.takeWhile (fun c => c.isDigit)
    if ds.isEmpty then 0 else (digitsToNat ds : Int)

/-- A JSON value appearing in a `maxSelections` position: a number, a
string, or a missing/null value. -/
inductive JVal where
  | num (q : ℚ)
  | str (s : String)
  | missing
deriving DecidableEq

/-- `typeof v === 'number' ? v : parseInt(v || '0', 10) || 0` — the
`parsedMax` expression repeated at every `maxSelections` read/write site. -/
def parsedMaxOf : JVal → ℚ
  | .num q => q
  | .str s => ((jsParseIntOr0 s : Int) : ℚ)
  | .missing => 0

/-- `Math.max(1, parsedMax)` — the `maxSel` coercion shared by every
catalog write and by the availability views. -/
def coerceMax (v : JVal) : ℚ := jsMax 1 (parsedMaxOf v)

/-- JS `x || null` on an optional string: the empty string is falsy and
collapses to null. -/
def jsOrNull (o : Option String) : Option String :=
  match o with
  | some s => if s == "" then none else some s
  | none => none

/-! ## Core records -/

/-- A stored registration document (both backends store the same fields;
`registrationDateTime` is the ISO timestamp taken at insert time). -/
structure Reg where
  teamNumber : String
  teamName : String
  teamLeader : String
  problemStatementId : String
  registrationDateTime : String
deriving DecidableEq

/-- The payload the registration service passes to
`createRegistrationAtomic` / `deleteRegistration`. -/
structure RegInput where
  teamNumber : String
  teamName : String
  teamLeader : String
  problemStatementId : String
deriving DecidableEq

/-- The `{ id, changes }` result object the stores return. -/
structure CreateOk where
  id : String
  changes : Nat
deriving DecidableEq

/-! ## File backend (`DatabaseManager`, src/unnamed/part_002) -/

/-- A problem statement as persisted in the file backend's single JSON
document. -/
structure FilePS where
  id : String
  title : String
  description : String
  maxSelections : ℚ
  category : Option String
  difficulty : Option String
  technologies : List String
deriving DecidableEq

/-- The single JSON document: two top-level arrays. -/
structure FileData where
  problemStatements : List FilePS
  registrations : List Reg
deriving DecidableEq

/-- Number of registrations in a list referencing a statement id (exact
match, as in `registrations.filter(r => r.problemStatementId === id).length`). -/
def countRegsList (l : List Reg) (pid : String) : Nat :=
  (l.filter (fun r => r.problemStatementId == pid)).length

/-- Number of stored registrations referencing a statement id. -/
def countRegsFile (d : FileData) (pid : String) : Nat :=
  countRegsList d.registrations pid

/-- The critical section of the file backend's `createRegistrationAtomic`
(part_002 lines 248-281): run with the freshly re-read document, it checks
duplicate team, statement existence, and capacity, and on success appends
the record and atomically replaces the document. -/
def fileCreateCritical (d : FileData) (r : RegInput) (now : String) :
    Option CreateOk × FileData :=
  let target := jsTrim r.teamNumber
  if d.registrations.any (fun x => jsTrim x.teamNumber == target) then
    (none, d)
  else
    match d.problemStatements.find? (fun p => p.id == r.problemStatementId) with
    | none => (none, d)
    | some ps =>
      let current := (d.registrations.filter
        (fun x => x.problemStatementId == ps.id)).length
      if ps.maxSelections ≤ (current : ℚ) then
        (none, d)
      else
        let record : Reg :=
          { teamNumber := target, teamName := r.teamName,
            teamLeader := r.teamLeader,
            problemStatementId := r.problemStatementId,
            registrationDateTime := now }
        (some { id := record.teamNumber, changes := 1 },
         { d with registrations := d.registrations ++ [record] })

/-- `deleteRegistration` in the file backend (part_002 lines 312-319):
filter out every registration whose trimmed team number matches, rewrite
the document, and return the number of rows removed. -/
def fileDeleteRegistration (d : FileData) (teamNumber : String) :
    Nat × FileData :=
  let target := jsTrim teamNumber
  let before := d.registrations.length
  let remaining := d.registrations.filter
    (fun r => !(jsTrim r.teamNumber == target))
  (before - remaining.length, { d with registrations := remaining })

/-- The fixed default catalog entry `ps001` (part_002 line 365, identical
in part_000 line 76). -/
def defaultPs001 : FilePS :=
  { id := "ps001", title := "Secure Authentication System",
    description := "Design and implement a multi-factor authentication system with biometric verification, OTP, and secure session management for a banking application.",
    maxSelections := 2, category := some "Cybersecurity",
    difficulty := some "Advanced",
    technologies := ["Node.js", "React", "JWT"] }

/-- The fixed default catalog entry `ps002`. -/
def defaultPs002 : FilePS :=
  { id := "ps002", title := "AI-Powered Code Review Assistant",
    description := "Develop an intelligent code review tool that uses machine learning to detect bugs, security vulnerabilities, and suggest improvements in real-time.",
    maxSelections := 2, category := some "Artificial Intelligence",
    difficulty := some "Advanced",
    technologies := ["Python", "TensorFlow"] }

/-- The fixed default catalog entry `ps003`. -/
def defaultPs003 : FilePS :=
  { id := "ps003", title := "Blockchain Supply Chain Tracker",
    description := "Create a transparent supply chain management system using blockchain technology to track products from manufacturer to consumer.",
    maxSelections := 2, category := some "Blockchain",
    difficulty := some "Intermediate",
    technologies := ["Ethereum", "Solidity"] }

/-- The three-entry default catalog seeded by both backends. -/
def defaultProblemStatements : List FilePS :=
  [defaultPs001, defaultPs002, defaultPs003]

/-- `seedProblemStatements` (part_002 lines 363-372): overwrite the
`problemStatements` array with the defaults, keeping `registrations`. -/
def fileSeedProblemStatements (d : FileData) : FileData :=
  { d with problemStatements := defaultProblemStatements }

/-- `resetAll` in the file backend (part_002 lines 374-380): write the
empty document, then re-seed the defaults. -/
def fileResetAll (_d : FileData) : FileData :=
  fileSeedProblemStatements { problemStatements := [], registrations := [] }

/-! ### The file backend's lock-retry loop

`createRegistrationAtomic` (part_002 lines 226-310) wraps the critical
section in a bounded retry loop around an exclusive-create lock file.  The
filesystem environment is modeled by two oracles: `lockBusy n` says the
exclusive create of the marker fails with `EEXIST` on attempt `n` (another
process holds the lock), and `bodyError n` says an exception (carrying an
opaque identifier) is raised inside the critical section on attempt `n` —
e.g. the atomic write failing before its rename lands, so the document is
unchanged.  The returned event list records the lock-marker creations and
removals and the `setTimeout` waits, in order. -/

/-- Observable filesystem events of one `createRegistrationAtomic` call. -/
inductive FsEvent where
  | lockCreated (attempt : Nat)
  | lockRemoved (attempt : Nat)
  | waited (ms : Nat)
deriving DecidableEq

/-- Whether an event touches the lock marker. -/
def isLockEvent : FsEvent → Bool
  | .lockCreated _ => true
  | .lockRemoved _ => true
  | .waited _ => false

/-- How one `createRegistrationAtomic` call terminates. -/
inductive LoopOutcome where
  | ok (r : CreateOk)
  | nullResult
  | errorThrown (e : Nat)
  | lockExhausted
deriving DecidableEq

/-- `const maxRetries = 10` (part_002 line 229). -/
def maxRetries : Nat := 10

/-- `const retryDelay = 50` ms (part_002 line 230). -/
def retryDelay : Nat := 50

/-- The retry loop of part_002 lines 232-309, by recursion on the number of
remaining attempts (`remaining = maxRetries - attempt`, so the source's
last-attempt test `attempt === maxRetries - 1` is `remaining = 0` after the
pattern `remaining+1`).  Exhausting the loop is the final
`throw new Error('Failed to acquire lock ...')` on line 309. -/
def createAttempts (useBlob : Bool) (lockBusy : Nat → Bool)
    (bodyError : Nat → Option Nat) (r : RegInput) (now : String) :
    Nat → Nat → FileData → LoopOutcome × FileData × List FsEvent
  | 0, _, d => (.lockExhausted, d, [])
  | remaining + 1, attempt, d =>
    if !useBlob && lockBusy attempt then
      -- EEXIST: wait retryDelay and continue with the next attempt
      let rest := createAttempts useBlob lockBusy bodyError r now
        remaining (attempt + 1) d
      (rest.1, rest.2.1, FsEvent.waited retryDelay :: rest.2.2)
    else
      let acq := if useBlob then [] else [FsEvent.lockCreated attempt]
      let rel := if useBlob then [] else [FsEvent.lockRemoved attempt]
      match bodyError attempt with
      | some e =>
        -- exception in the critical section: the finally block (and the
        -- outer catch) remove the marker, then rethrow on the last
        -- attempt or wait and retry otherwise
        if remaining = 0 then
          (.errorThrown e, d, acq ++ rel)
        else
          let rest := createAttempts useBlob lockBusy bodyError r now
            remaining (attempt + 1) d
          (rest.1, rest.2.1,
           acq ++ rel ++ FsEvent.waited retryDelay :: rest.2.2)
      | none =>
        match fileCreateCritical d r now with
        | (some res, d1) => (.ok res, d1, acq ++ rel)
        | (none, d1) => (.nullResult, d1, acq ++ rel)

/-- `createRegistrationAtomic` of the file backend: run the loop from
attempt 0 with `maxRetries` attempts available. -/
def createRegistrationAtomicFile (useBlob : Bool) (lockBusy : Nat → Bool)
    (bodyError : Nat → Option Nat) (d : FileData) (r : RegInput)
    (now : String) : LoopOutcome × FileData × List FsEvent :=
  createAttempts useBlob lockBusy bodyError r now maxRetries 0 d

/-! ### File backend catalog operations -/

/-- The input record for catalog writes; `maxSelections` is an arbitrary
JSON value, `technologies` is `none` when not an array. -/
structure PSInput where
  id : String
  title : String
  description : String
  maxSelections : JVal
  category : Option String
  difficulty : Option String
  technologies : Option (List String)
deriving DecidableEq

/-- The stored object literal shared by `createProblemStatement`,
`importFromJSON` and `replaceFromJSON` (repeated verbatim in the source). -/
def psFromInput (p : PSInput) : FilePS :=
  { id := p.id, title := p.title, description := p.description,
    maxSelections := coerceMax p.maxSelections,
    category := jsOrNull p.category, difficulty := jsOrNull p.difficulty,
    technologies := p.technologies.getD [] }

/-- `createProblemStatement` in the file backend (part_002 lines 132-150). -/
def fileCreateProblemStatement (d : FileData) (p : PSInput) :
    CreateOk × FileData :=
  if d.problemStatements.any (fun q => q.id == p.id) then
    ({ id := p.id, changes := 0 }, d)
  else
    ({ id := p.id, changes := 1 },
     { d with problemStatements := d.problemStatements ++ [psFromInput p] })

/-- The update payload: `none` is an absent (`undefined`) field.  For the
nullable text fields the inner option is the provided value (possibly
null); a provided non-array `technologies` is the inner `none`. -/
structure UpdateInput where
  title : Option String := none
  description : Option String := none
  max_selections : Option JVal := none
  maxSelections : Option JVal := none
  category : Option (Option String) := none
  difficulty : Option (Option String) := none
  technologies : Option (Option (List String)) := none
deriving DecidableEq

/-- The field-by-field update of part_002 lines 157-170, in source order:
`max_selections` is applied before `maxSelections`, so the latter wins when
both are present. -/
def applyUpdates (u : UpdateInput) (current : FilePS) : FilePS :=
  let n1 := match u.title with
    | some t => { current with title := t }
    | none => current
  let n2 := match u.description with
    | some t => { n1 with description := t }
    | none => n1
  let n3 := match u.max_selections with
    | some v => { n2 with maxSelections := coerceMax v }
    | none => n2
  let n4 := match u.maxSelections with
    | some v => { n3 with maxSelections := coerceMax v }
    | none => n3
  let n5 := match u.category with
    | some c => { n4 with category := c }
    | none => n4
  let n6 := match u.difficulty with
    | some c => { n5 with difficulty := c }
    | none => n5
  match u.technologies with
  | some t => { n6 with technologies := t.getD [] }
  | none => n6

/-- Replace the first element with the given id (the source's
`findIndex` followed by an indexed assignment). -/
def updateFirstFilePS : List FilePS → String → (FilePS → FilePS) → List FilePS
  | [], _, _ => []
  | p :: ps, pid, f =>
    if p.id == pid then f p :: ps else p :: updateFirstFilePS ps pid f

/-- `updateProblemStatement` in the file backend (part_002 lines 152-174). -/
def fileUpdateProblemStatement (d : FileData) (id : String) (u : UpdateInput) :
    CreateOk × FileData :=
  if d.problemStatements.any (fun p => p.id == id) then
    ({ id := id, changes := 1 },
     { d with problemStatements :=
        (updateFirstFilePS d.problemStatements id (applyUpdates u)) })
  else ({ id := id, changes := 0 }, d)

/-- `importFromJSON` in the file backend (part_002 lines 321-341): `none`
models a payload that is not an object with a `problemStatements` array.
The set of existing ids is computed once, before the loop. -/
def fileImportFromJSON (d : FileData) (jsonData : Option (List PSInput)) :
    FileData :=
  match jsonData with
  | none => d
  | some items =>
    let existing := d.problemStatements.map (fun p => p.id)
    { d with problemStatements := (d.problemStatements ++
        (items.filter (fun p => !(existing.contains p.id))).map psFromInput) }

/-- `replaceFromJSON` in the file backend (part_002 lines 343-361):
destructive overwrite of both collections. -/
def fileReplaceFromJSON (d : FileData) (jsonData : Option (List PSInput)) :
    Bool × FileData :=
  match jsonData with
  | none => (false, d)
  | some items =>
    (true, { problemStatements := items.map psFromInput, registrations := [] })

/-- A row of the availability view returned by `getAllProblemStatements`. -/
structure PSView where
  id : String
  title : String
  description : String
  max_selections : ℚ
  category : Option String
  difficulty : Option String
  technologies : List String
  selected_count : Nat
  is_available : Bool
deriving DecidableEq

/-- `getAllProblemStatements` in the file backend (part_002 lines 95-125).
The `idToCount` map skips registrations with a falsy
`problemStatementId`, so a statement whose id is the empty string reads a
count of 0. -/
def fileGetAllProblemStatements (d : FileData) : List PSView :=
  d.problemStatements.map (fun ps =>
    let maxSel := jsMax 1 (parsedMaxOf (JVal.num ps.maxSelections))
    let selected := if ps.id == "" then 0 else
      (d.registrations.filter (fun r => r.problemStatementId == ps.id)).length
    { id := ps.id, title := ps.title, description := ps.description,
      max_selections := maxSel, category := jsOrNull ps.category,
      difficulty := jsOrNull ps.difficulty,
      technologies := ps.technologies, selected_count := selected,
      is_available := decide ((selected : ℚ) < maxSel) })

/-! ## Mongo backend (`MongoStore`, src/unnamed/part_000) -/

/-- A problem statement document; `selectedCount` is `none` when the field
is absent (seed documents and fresh inserts do not carry it). -/
structure MongoPS where
  id : String
  title : String
  description : String
  maxSelections : ℚ
  category : Option String
  difficulty : Option String
  technologies : List String
  selectedCount : Option Int
deriving DecidableEq

/-- The two collections of the Mongo backend. -/
structure MongoData where
  problemStatements : List MongoPS
  registrations : List Reg
deriving DecidableEq

/-- Number of registration documents referencing a statement id
(`regs.countDocuments({ problemStatementId })`). -/
def countRegsMongo (s : MongoData) (pid : String) : Nat :=
  countRegsList s.registrations pid

/-- `updateOne({ id }, ...)`: apply `f` to the first document with the
given id. -/
def updateFirstMongoPS : List MongoPS → String → (MongoPS → MongoPS) →
    List MongoPS
  | [], _, _ => []
  | p :: ps, pid, f =>
    if p.id == pid then f p :: ps else p :: updateFirstMongoPS ps pid f

/-- `updateOne({ id }, { $inc: { selectedCount: delta } })`; `$inc` on an
absent field creates it holding `delta`. -/
def mongoIncSelected (s : MongoData) (pid : String) (delta : Int) :
    MongoData :=
  { s with problemStatements :=
      (updateFirstMongoPS s.problemStatements pid
        (fun p => { p with selectedCount := some (p.selectedCount.getD 0 + delta) })) }

/-- The reconciliation write of part_000 lines 303-307: set the cached
`selectedCount` of the statement to the actual registration count. -/
def mongoReconcile (s : MongoData) (pid : String) : MongoData :=
  { s with problemStatements :=
      (updateFirstMongoPS s.problemStatements pid
        (fun p => { p with selectedCount := some ((countRegsMongo s pid : Nat) : Int) })) }

/-- `createRegistrationAtomic` in the Mongo backend (part_000 lines
281-361), as the serialized effect of the `withTransaction` callback.
`insertOk = false` models the `insertOne` inside the transaction throwing
a duplicate-key error: the compensating decrement runs, the callback
rethrows, the transaction aborts with no visible effect, and the outer
catch turns error code 11000 into a null result — so the state reverts to
the input.  Note the "full" path returns from the callback normally, so
the transaction commits the reconciliation write it may have made. -/
def mongoCreateRegistrationAtomic (s : MongoData) (r : RegInput)
    (now : String) (insertOk : Bool) : Option CreateOk × MongoData :=
  let target := jsTrim r.teamNumber
  if s.registrations.any (fun x => x.teamNumber == target) then
    (none, s)
  else
    match s.problemStatements.find? (fun p => p.id == r.problemStatementId) with
    | none => (none, s)
    | some problem =>
      let maxSel : ℚ := jsMax 1 (parsedMaxOf (JVal.num problem.maxSelections))
      let actualCount : Nat := (s.registrations.filter
        (fun x => x.problemStatementId == problem.id)).length
      let currentSelected : Int := problem.selectedCount.getD 0
      let s1 :=
        if currentSelected = (actualCount : Int) then s
        else { s with problemStatements :=
          (updateFirstMongoPS s.problemStatements problem.id
            (fun p => { p with selectedCount := some ((actualCount : Nat) : Int) })) }
      -- the conditional compare-and-increment evaluates $ifNull on the
      -- document as it stands after the reconciliation write
      let afterSync := (s1.problemStatements.find?
        (fun p => p.id == problem.id)).getD problem
      if ((afterSync.selectedCount.getD 0 : Int) : ℚ) < maxSel then
        let s2 := { s1 with problemStatements :=
          (updateFirstMongoPS s1.problemStatements problem.id
            (fun p => { p with selectedCount := some (p.selectedCount.getD 0 + 1) })) }
        if insertOk then
          let record : Reg :=
            { teamNumber := target, teamName := r.teamName,
              teamLeader := r.teamLeader,
              problemStatementId := r.problemStatementId,
              registrationDateTime := now }
          (some { id := record.teamNumber, changes := 1 },
           { s2 with registrations := s2.registrations ++ [record] })
        else (none, s)
      else (none, s1)

/-- `deleteOne({ teamNumber })`: remove the first document with the given
team number, returning it. -/
def deleteFirstReg : List Reg → String → Option Reg × List Reg
  | [], _ => (none, [])
  | r :: rs, t =>
    if r.teamNumber == t then (some r, rs)
    else
      let rest := deleteFirstReg rs t
      (rest.1, r :: rest.2)

/-- `deleteRegistration` in the Mongo backend (part_000 lines 363-373):
`findOne` + `deleteOne` on the trimmed team number; when a document was
deleted and its `problemStatementId` is truthy, `$inc` the statement's
cached count by -1. -/
def mongoDeleteRegistration (s : MongoData) (teamNumber : String) :
    Nat × MongoData :=
  let target := jsTrim teamNumber
  match deleteFirstReg s.registrations target with
  | (none, _) => (0, s)
  | (some reg, rs) =>
    let s1 := { s with registrations := rs }
    if reg.problemStatementId == "" then (1, s1)
    else (1, mongoIncSelected s1 reg.problemStatementId (-1))

/-- The default catalog entry `ps001` as inserted by the Mongo backend's
`init` seed (part_000 line 76); the document carries no `selectedCount`. -/
def mongoPs001 : MongoPS :=
  { id := "ps001", title := "Secure Authentication System",
    description := "Design and implement a multi-factor authentication system with biometric verification, OTP, and secure session management for a banking application.",
    maxSelections := 2, category := some "Cybersecurity",
    difficulty := some "Advanced",
    technologies := ["Node.js", "React", "JWT"], selectedCount := none }

/-- The default catalog entry `ps002` of the Mongo seed. -/
def mongoPs002 : MongoPS :=
  { id := "ps002", title := "AI-Powered Code Review Assistant",
    description := "Develop an intelligent code review tool that uses machine learning to detect bugs, security vulnerabilities, and suggest improvements in real-time.",
    maxSelections := 2, category := some "Artificial Intelligence",
    difficulty := some "Advanced",
    technologies := ["Python", "TensorFlow"], selectedCount := none }

/-- The default catalog entry `ps003` of the Mongo seed. -/
def mongoPs003 : MongoPS :=
  { id := "ps003", title := "Blockchain Supply Chain Tracker",
    description := "Create a transparent supply chain management system using blockchain technology to track products from manufacturer to consumer.",
    maxSelections := 2, category := some "Blockchain",
    difficulty := some "Intermediate",
    technologies := ["Ethereum", "Solidity"], selectedCount := none }

/-- The default catalog as inserted by the Mongo backend's `init` seed
(part_000 lines 75-80). -/
def mongoDefaultProblemStatements : List MongoPS :=
  [mongoPs001, mongoPs002, mongoPs003]

/-- A Mongo connection: `dbSet` is whether `this.db` is non-null. -/
structure MongoConn where
  dbSet : Bool
  st : MongoData
deriving DecidableEq

/-- `init` of the Mongo backend (part_000 lines 13-82): returns at once
when `this.db` is already set; otherwise connects and seeds the default
catalog when the `problem_statements` collection is empty.  Index creation
does not change the collections and is not modeled. -/
def mongoInit (c : MongoConn) : MongoConn :=
  if c.dbSet then c
  else
    { dbSet := true,
      st := (if c.st.problemStatements.isEmpty then
        { c.st with problemStatements := mongoDefaultProblemStatements }
      else c.st) }

/-- `resetAll` in the Mongo backend (part_000 lines 423-430): ensure the
connection, delete both collections, then call `init` again. -/
def mongoResetAll (c : MongoConn) : MongoConn :=
  let c1 := if c.dbSet then c else mongoInit c
  let c2 : MongoConn :=
    { c1 with st := { problemStatements := [], registrations := [] } }
  mongoInit c2

/-- `getAllProblemStatements` in the Mongo backend (part_000 lines 88-115);
unlike the file backend's, its `idToCount` map has no falsy-id guard. -/
def mongoGetAllProblemStatements (s : MongoData) : List PSView :=
  s.problemStatements.map (fun ps =>
    let maxSel := jsMax 1 (parsedMaxOf (JVal.num ps.maxSelections))
    let selected := (s.registrations.filter
      (fun r => r.problemStatementId == ps.id)).length
    { id := ps.id, title := ps.title, description := ps.description,
      max_selections := maxSel, category := jsOrNull ps.category,
      difficulty := jsOrNull ps.difficulty,
      technologies := ps.technologies, selected_count := selected,
      is_available := decide ((selected : ℚ) < maxSel) })

/-- A Mongo problem-statement document built from a catalog input
(`insertOne`/`insertMany` sites in part_000; no `selectedCount` field). -/
def mongoPSFromInput (p : PSInput) : MongoPS :=
  { id := p.id, title := p.title, description := p.description,
    maxSelections := coerceMax p.maxSelections,
    category := jsOrNull p.category, difficulty := jsOrNull p.difficulty,
    technologies := p.technologies.getD [], selectedCount := none }

/-- `createProblemStatement` in the Mongo backend (part_000 lines 123-142):
the `insertOne` throws a duplicate-key error when the unique index on `id`
already holds the id, and the catch returns `changes: 0`. -/
def mongoCreateProblemStatement (s : MongoData) (p : PSInput) :
    CreateOk × MongoData :=
  if s.problemStatements.any (fun q => q.id == p.id) then
    ({ id := p.id, changes := 0 }, s)
  else
    ({ id := p.id, changes := 1 },
     { s with problemStatements := s.problemStatements ++ [mongoPSFromInput p] })

/-- `a ?? b` on optional JSON values, where the outer `none` is an absent
field and `JVal.missing` is null: both fall through to `b`. -/
def jsCoalesce (a : Option JVal) (b : Option JVal) : JVal :=
  match a with
  | some v => if v == JVal.missing then b.getD JVal.missing else v
  | none => b.getD JVal.missing

/-- `updateProblemStatement` in the Mongo backend (part_000 lines 144-160):
a single `$set` built from the provided fields, with
`updates.max_selections ?? updates.maxSelections` coerced through
`Math.max(1, ...)`.  `modifiedCount` is modeled as whether a document with
the id exists (a `$set` to identical values is not distinguished). -/
def mongoUpdateProblemStatement (s : MongoData) (id : String)
    (u : UpdateInput) : CreateOk × MongoData :=
  let setMax := u.max_selections.isSome || u.maxSelections.isSome
  let f : MongoPS → MongoPS := fun current =>
    let n1 := match u.title with
      | some t => { current with title := t }
      | none => current
    let n2 := match u.description with
      | some t => { n1 with description := t }
      | none => n1
    let n3 := match u.category with
      | some c => { n2 with category := c }
      | none => n2
    let n4 := match u.difficulty with
      | some c => { n3 with difficulty := c }
      | none => n3
    let n5 := match u.technologies with
      | some t => { n4 with technologies := t.getD [] }
      | none => n4
    if setMax then
      { n5 with maxSelections := coerceMax (jsCoalesce u.max_selections u.maxSelections) }
    else n5
  if s.problemStatements.any (fun p => p.id == id) then
    ({ id := id, changes := 1 },
     { s with problemStatements := updateFirstMongoPS s.problemStatements id f })
  else ({ id := id, changes := 0 }, s)

/-- `importFromJSON` in the Mongo backend (part_000 lines 375-397): insert
the payload items whose ids are not already present; the id set is read
once before the loop. -/
def mongoImportFromJSON (s : MongoData) (jsonData : Option (List PSInput)) :
    MongoData :=
  match jsonData with
  | none => s
  | some items =>
    let existing := s.problemStatements.map (fun p => p.id)
    { s with problemStatements := (s.problemStatements ++
        (items.filter (fun p => !(existing.contains p.id))).map mongoPSFromInput) }

/-- `replaceFromJSON` in the Mongo backend (part_000 lines 399-421): clear
both collections, then insert the payload. -/
def mongoReplaceFromJSON (s : MongoData) (jsonData : Option (List PSInput)) :
    Bool × MongoData :=
  match jsonData with
  | none => (false, s)
  | some items =>
    (true, { problemStatements := items.map mongoPSFromInput, registrations := [] })

/-! ### Mongo `getAllRegistrations` and its duplicate-key self-healing -/

/-- A row of the registrations listing (the IST rendering of the timestamp
is an uninterpreted formatter passed in as `fmt`). -/
structure Row where
  team_number : String
  team_name : String
  team_leader : String
  problem_title : String
  problem_category : Option String
  problem_difficulty : Option String
  registration_date_time : String
  registration_date_time_ist : String
deriving DecidableEq

/-- The join of registrations with their statement (part_000 lines
199-213).  `new Map(problems.map(p => [p.id, p]))` keeps the last entry
per key, hence the lookup in the reversed list. -/
def joinRows (fmt : String → String) (s : MongoData) : List Row :=
  s.registrations.map (fun r =>
    let ps := s.problemStatements.reverse.find?
      (fun p => p.id == r.problemStatementId)
    { team_number := r.teamNumber, team_name := r.teamName,
      team_leader := r.teamLeader,
      problem_title := (ps.map (fun p => p.title)).getD "",
      problem_category := (ps.map (fun p => jsOrNull p.category)).getD none,
      problem_difficulty := (ps.map (fun p => jsOrNull p.difficulty)).getD none,
      registration_date_time := r.registrationDateTime,
      registration_date_time_ist := fmt r.registrationDateTime })

/-- The deduplication of part_000 lines 220-232: group by `teamNumber`
(exact match, document order), keep the first document of each group and
delete the rest. -/
def dedupeRegsAux (seen : List String) : List Reg → List Reg
  | [] => []
  | r :: rs =>
    if seen.contains r.teamNumber then dedupeRegsAux seen rs
    else r :: dedupeRegsAux (r.teamNumber :: seen) rs

/-- Keep the first registration of each `teamNumber` group, in document
order, deleting the later duplicates. -/
def dedupeRegs (l : List Reg) : List Reg := dedupeRegsAux [] l

/-- Apply the deduplication to the store. -/
def mongoDedupState (s : MongoData) : MongoData :=
  { s with registrations := dedupeRegs s.registrations }

/-- An error thrown by the driver; `isDupKey` is the value of the check
`error.code === 11000 || error.message.includes('E11000') ||
error.message.includes('duplicate key')` used identically in the store and
in the handler. -/
structure JsError where
  isDupKey : Bool
deriving DecidableEq

/-- How a `getAllRegistrations` call ends at the store boundary. -/
inductive StoreRead where
  | rows (l : List Row)
  | threw (e : JsError)
deriving DecidableEq

/-- `getAllRegistrations` in the Mongo backend (part_000 lines 195-257).
`readErr` is whether the initial read throws; `retryFails` is whether the
re-read after the cleanup throws.  A failed retry is caught and an empty
array is returned (line 252); only non-duplicate-key errors propagate. -/
def mongoGetAllRegistrations (fmt : String → String) (s : MongoData)
    (readErr : Option JsError) (retryFails : Bool) : StoreRead × MongoData :=
  match readErr with
  | none => (.rows (joinRows fmt s), s)
  | some e =>
    if e.isDupKey then
      let s1 := mongoDedupState s
      if retryFails then (.rows [], s1)
      else (.rows (joinRows fmt s1), s1)
    else (.threw e, s)

/-- What the `GET /api/registrations` handler responds with (the team-CSV
enrichment does not affect which branch is taken and is not modeled). -/
inductive ApiResp where
  | ok (rows : List Row)
  | err500 (adminActionable : Bool)
deriving DecidableEq

/-- The `GET /api/registrations` handler (src/app.js lines 442-476): call
the store; on a duplicate-key error call it once more, answering the
distinct administrator-actionable 500 if that also throws; any other error
is the generic 500. -/
def apiRegistrations (fmt : String → String) (s : MongoData)
    (err1 : Option JsError) (fail1 : Bool)
    (err2 : Option JsError) (fail2 : Bool) : ApiResp × MongoData :=
  match mongoGetAllRegistrations fmt s err1 fail1 with
  | (.rows l, s1) => (.ok l, s1)
  | (.threw e, s1) =>
    if e.isDupKey then
      match mongoGetAllRegistrations fmt s1 err2 fail2 with
      | (.rows l, s2) => (.ok l, s2)
      | (.threw _, s2) => (.err500 true, s2)
    else (.err500 false, s1)

/-! ## Operation sequences and invariants -/

/-- A register or delete operation, as in the capacity claim; `insertOk`
is the Mongo insert oracle and is ignored by the file backend. -/
inductive Op where
  | register (r : RegInput) (now : String) (insertOk : Bool)
  | delete (teamNumber : String)

/-- Apply one operation to the file backend's document (the successful
lock acquisition runs exactly the critical section on the current durable
state). -/
def applyOpFile (d : FileData) : Op → FileData
  | .register r now _ => (fileCreateCritical d r now).2
  | .delete t => (fileDeleteRegistration d t).2

/-- Run a sequence of operations on the file backend. -/
def runOpsFile (d : FileData) (ops : List Op) : FileData :=
  ops.foldl applyOpFile d

/-- Apply one operation to the Mongo backend's collections. -/
def applyOpMongo (s : MongoData) : Op → MongoData
  | .register r now ok => (mongoCreateRegistrationAtomic s r now ok).2
  | .delete t => (mongoDeleteRegistration s t).2

/-- Run a sequence of operations on the Mongo backend. -/
def runOpsMongo (s : MongoData) (ops : List Op) : MongoData :=
  ops.foldl applyOpMongo s

/-- `q` is a natural number. -/
abbrev isNatQ (q : ℚ) : Prop := q.den = 1 ∧ 0 ≤ q.num

/-- File-backend capacity invariant: statement ids are distinct, every
`maxSelections` is a natural number, and no statement is oversubscribed. -/
abbrev capFile (d : FileData) : Prop :=
  (d.problemStatements.map (fun p => p.id)).Nodup ∧
  ∀ p ∈ d.problemStatements, isNatQ p.maxSelections ∧
    (countRegsFile d p.id : ℚ) ≤ p.maxSelections

/-- Mongo-backend capacity invariant: statement ids are distinct and every
`maxSelections` is a natural number ≥ 1 (as every catalog write
guarantees) bounding the registration count. -/
abbrev capMongo (s : MongoData) : Prop :=
  (s.problemStatements.map (fun p => p.id)).Nodup ∧
  ∀ p ∈ s.problemStatements, isNatQ p.maxSelections ∧
    1 ≤ p.maxSelections ∧ (countRegsMongo s p.id : ℚ) ≤ p.maxSelections

/-- File-backend uniqueness invariant: trimmed team numbers are pairwise
distinct. -/
abbrev uniqFile (d : FileData) : Prop :=
  (d.registrations.map (fun r => jsTrim r.teamNumber)).Nodup

/-- Mongo-backend uniqueness invariant: stored team numbers are pairwise
distinct and already trimmed (every write stores the trimmed target). -/
abbrev uniqMongo (s : MongoData) : Prop :=
  (s.registrations.map (fun r => r.teamNumber)).Nodup ∧
  ∀ r ∈ s.registrations, jsTrim r.teamNumber = r.teamNumber

/-- The `maxSelections` floor: every stored value is at least 1. -/
abbrev psFloorFile (d : FileData) : Prop :=
  ∀ p ∈ d.problemStatements, 1 ≤ p.maxSelections

/-- The `maxSelections` floor for the Mongo catalog. -/
abbrev psFloorMongo (s : MongoData) : Prop :=
  ∀ p ∈ s.problemStatements, 1 ≤ p.maxSelections

/-! ## Concrete fixtures for witnesses and counterexamples -/

/-- The file store right after seeding. -/
def seedFileData : FileData :=
  { problemStatements := defaultProblemStatements, registrations := [] }

/-- A registration input for team T1 against ps001. -/
def inT1 : RegInput :=
  { teamNumber := "T1", teamName := "Alpha", teamLeader := "Lead One",
    problemStatementId := "ps001" }

/-- A registration input for team T2 against ps001. -/
def inT2 : RegInput :=
  { teamNumber := "T2", teamName := "Beta", teamLeader := "Lead Two",
    problemStatementId := "ps001" }

/-- A registration input for team T3 against ps001. -/
def inT3 : RegInput :=
  { teamNumber := "T3", teamName := "Gamma", teamLeader := "Lead Three",
    problemStatementId := "ps001" }

/-- A stored registration for T1 on ps001. -/
def regT1 : Reg :=
  { teamNumber := "T1", teamName := "Alpha", teamLeader := "Lead One",
    problemStatementId := "ps001", registrationDateTime := "2024-01-01T00:00:00.000Z" }

/-- A stored registration for T2 on ps001. -/
def regT2 : Reg :=
  { teamNumber := "T2", teamName := "Beta", teamLeader := "Lead Two",
    problemStatementId := "ps001", registrationDateTime := "2024-01-02T00:00:00.000Z" }

/-- Two successful registrations against ps001. -/
def demoOps : List Op :=
  [.register inT1 "2024-01-01T00:00:00.000Z" true,
   .register inT2 "2024-01-02T00:00:00.000Z" true]

/-- File store with T1 registered on the default catalog. -/
def fileWithT1 : FileData :=
  { problemStatements := defaultProblemStatements, registrations := [regT1] }

/-- A Mongo catalog entry for ps001 whose cached `selectedCount` has
drifted to 5 while only two registrations exist. -/
def driftPs001 : MongoPS :=
  { id := "ps001", title := "Secure Authentication System",
    description := "drifted cache fixture",
    maxSelections := 2, category := none, difficulty := none,
    technologies := [], selectedCount := some 5 }

/-- A Mongo store with a drifted cache and a full ps001. -/
def driftMongo : MongoData :=
  { problemStatements := [driftPs001], registrations := [regT1, regT2] }

/-- The seeded Mongo store with T1 and T2 registered (ps001 full). -/
def fullMongo : MongoData :=
  { problemStatements := mongoDefaultProblemStatements,
    registrations := [regT1, regT2] }

/-- The seeded Mongo store with T1 registered. -/
def mongoWithT1 : MongoData :=
  { problemStatements := mongoDefaultProblemStatements,
    registrations := [regT1] }

/-- Two conflicting registration documents sharing team number T1
(historical corruption). -/
def dupMongo : MongoData :=
  { problemStatements := [],
    registrations :=
      [regT1,
       { teamNumber := "T1", teamName := "Alpha Prime", teamLeader := "Lead X",
         problemStatementId := "ps001",
         registrationDateTime := "2024-01-03T00:00:00.000Z" }] }

/-- The rational 5/2, i.e. the JSON number 2.5 (written with the raw
constructor so that it evaluates by kernel reduction). -/
def fractionalMax : ℚ := Rat.mk' 5 2 (by decide) (by decide)

/-- The file store with ps001 full (T1 and T2 registered). -/
def fullFile : FileData :=
  { problemStatements := defaultProblemStatements,
    registrations := [regT1, regT2] }

/-- The Mongo store right after seeding. -/
def seedMongoData : MongoData :=
  { problemStatements := mongoDefaultProblemStatements, registrations := [] }

/-- A catalog input whose `maxSelections` is the JSON number 2.5. -/
def fractionalInput : PSInput :=
  { id := "px01", title := "Fractional", description := "fixture",
    maxSelections := JVal.num fractionalMax, category := none,
    difficulty := none, technologies := none }

/-! ## Helper lemmas -/

theorem dropWhile_dropWhile_self (p : Char → Bool) (l : List Char) :
    (l.dropWhile p).dropWhile p = l.dropWhile p := by
  induction l with
  | nil => rfl
  | cons a t ih =>
    cases h : p a with
    | true => simp [List.dropWhile_cons, h, ih]
    | false => simp [List.dropWhile_cons, h]

theorem head?_dropWhile_not (p : Char → Bool) (l : List Char) :
    ∀ a, (l.dropWhile p).head? = some a → p a = false := by
  induction l with
  | nil => intro a h; simp at h
  | cons b t ih =>
    intro a h
    cases hb : p b with
    | true => rw [List.dropWhile_cons, if_pos hb] at h; exact ih a h
    | false =>
      rw [List.dropWhile_cons, if_neg (by simp [hb])] at h
      simp only [List.head?_cons, Option.some.injEq] at h
      rw [← h]; exact hb

theorem dropWhile_eq_self_of_head (p : Char → Bool) (l : List Char)
    (h : ∀ a, l.head? = some a → p a = false) : l.dropWhile p = l := by
  cases l with
  | nil => rfl
  | cons a t =>
    rw [List.dropWhile_cons, if_neg]
    simp [h a rfl]

theorem trimChars_idem (l : List Char) :
    trimChars (trimChars l) = trimChars l := by
  unfold trimChars
  have hm : (l.dropWhile jsIsWs).dropWhile jsIsWs = l.dropWhile jsIsWs :=
    dropWhile_dropWhile_self jsIsWs l
  have hsplit : l.dropWhile jsIsWs =
      ((l.dropWhile jsIsWs).reverse.dropWhile jsIsWs).reverse ++
        ((l.dropWhile jsIsWs).reverse.takeWhile jsIsWs).reverse := by
    conv_lhs => rw [← List.reverse_reverse (l.dropWhile jsIsWs),
      ← List.takeWhile_append_dropWhile (p := jsIsWs)
        (l := (l.dropWhile jsIsWs).reverse)]
    rw [List.reverse_append]
  have hstep1 :
      (((l.dropWhile jsIsWs).reverse.dropWhile jsIsWs).reverse).dropWhile jsIsWs =
        ((l.dropWhile jsIsWs).reverse.dropWhile jsIsWs).reverse := by
    apply dropWhile_eq_self_of_head
    intro a ha
    cases hrr : ((l.dropWhile jsIsWs).reverse.dropWhile jsIsWs).reverse with
    | nil => rw [hrr] at ha; simp at ha
    | cons b t =>
      rw [hrr] at ha
      simp only [List.head?_cons, Option.some.injEq] at ha
      have hmhead : (l.dropWhile jsIsWs).head? = some b := by
        rw [hsplit, hrr]; simp
      simpa [ha] using head?_dropWhile_not jsIsWs l b hmhead
  rw [hstep1, List.reverse_reverse,
    dropWhile_dropWhile_self jsIsWs ((l.dropWhile jsIsWs).reverse)]

theorem jsTrim_idem (s : String) : jsTrim (jsTrim s) = jsTrim s := by
  show String.mk (trimChars (trimChars s.data)) = String.mk (trimChars s.data)
  rw [trimChars_idem]

theorem one_le_jsMax_one (q : ℚ) : 1 ≤ jsMax 1 q := by
  unfold jsMax
  split
  · assumption
  · exact le_refl 1

theorem jsMax_one_of_one_le (q : ℚ) (h : 1 ≤ q) : jsMax 1 q = q := by
  unfold jsMax
  rw [if_pos h]

theorem jsMax_one_of_le_one (q : ℚ) (h : q ≤ 1) : jsMax 1 q = 1 := by
  unfold jsMax
  split
  · exact le_antisymm h (by assumption)
  · rfl

theorem one_le_coerceMax (v : JVal) : 1 ≤ coerceMax v :=
  one_le_jsMax_one _

theorem isNatQ_iff (q : ℚ) : isNatQ q ↔ ∃ n : ℕ, q = (n : ℚ) := by
  constructor
  · rintro ⟨hden, hnum⟩
    refine ⟨q.num.toNat, ?_⟩
    have h1 : ((q.num : ℚ)) = q := by
      rw [← Rat.den_eq_one_iff]; exact hden
    rw [← h1]
    norm_cast
    exact (Int.toNat_of_nonneg hnum).symm
  · rintro ⟨n, rfl⟩
    exact ⟨Rat.den_natCast n, by rw [Rat.num_natCast]; exact Int.ofNat_nonneg n⟩

theorem coerceMax_missing : coerceMax JVal.missing = 1 := by decide

theorem coerceMax_of_nonpos (v : JVal) (h : parsedMaxOf v ≤ 0) :
    coerceMax v = 1 :=
  jsMax_one_of_le_one _ (le_trans h (by norm_num))

theorem isNatQ_one : isNatQ (1 : ℚ) := by decide

theorem isNatQ_jsMax_one_int (n : Int) : isNatQ (jsMax 1 (n : ℚ)) := by
  rcases le_or_lt 1 ((n : ℚ)) with h | h
  · rw [jsMax_one_of_one_le _ h]
    refine ⟨Rat.den_intCast n, ?_⟩
    rw [Rat.num_intCast]
    have h1 : (1 : Int) ≤ n := by exact_mod_cast h
    omega
  · rw [jsMax_one_of_le_one _ (le_of_lt h)]
    exact isNatQ_one

theorem isNatQ_coerceMax_str (s : String) : isNatQ (coerceMax (JVal.str s)) :=
  isNatQ_jsMax_one_int _

theorem isNatQ_coerceMax_num (q : ℚ) (h : isNatQ q) :
    isNatQ (coerceMax (JVal.num q)) := by
  rcases (isNatQ_iff q).mp h with ⟨n, rfl⟩
  have he : parsedMaxOf (JVal.num ((n : ℕ) : ℚ)) = (((n : ℕ) : Int) : ℚ) := by
    rw [parsedMaxOf]; push_cast; ring
  show isNatQ (jsMax 1 (parsedMaxOf (JVal.num ((n : ℕ) : ℚ))))
  rw [he]
  exact isNatQ_jsMax_one_int _

theorem find?_key_eq_some {α : Type _} (key : α → String) (l : List α) (x : α)
    (hnd : (l.map key).Nodup) (hx : x ∈ l) :
    l.find? (fun y => key y == key x) = some x := by
  induction l with
  | nil => cases hx
  | cons a t ih =>
    rw [List.map_cons, List.nodup_cons] at hnd
    rcases List.mem_cons.mp hx with h | h
    · subst h
      exact List.find?_cons_of_pos _ (by simp)
    · have hne : (key a == key x) = false := by
        rw [beq_eq_false_iff_ne]
        intro he
        exact hnd.1 (he ▸ List.mem_map_of_mem key h)
      rw [List.find?_cons_of_neg _ (by simp [hne])]
      exact ih hnd.2 h

theorem countRegsList_append_one (l : List Reg) (r : Reg) (pid : String) :
    countRegsList (l ++ [r]) pid =
      countRegsList l pid + (if r.problemStatementId == pid then 1 else 0) := by
  unfold countRegsList
  rw [List.filter_append, List.length_append]
  cases h : (r.problemStatementId == pid) <;> simp [List.filter, h]

theorem countRegsList_sublist {l1 l2 : List Reg} (h : l1.Sublist l2)
    (pid : String) : countRegsList l1 pid ≤ countRegsList l2 pid :=
  List.Sublist.length_le (List.Sublist.filter _ h)

theorem countRegsList_middle (l1 l2 : List Reg) (x : Reg) (pid : String) :
    countRegsList (l1 ++ x :: l2) pid =
      countRegsList (l1 ++ l2) pid +
        (if x.problemStatementId == pid then 1 else 0) := by
  unfold countRegsList
  rw [List.filter_append, List.filter_append, List.length_append,
    List.length_append]
  cases h : (x.problemStatementId == pid) <;>
    · simp [List.filter, h]
      try omega

theorem map_id_updateFirstMongoPS (l : List MongoPS) (pid : String)
    (f : MongoPS → MongoPS) (hid : ∀ x, (f x).id = x.id) :
    (updateFirstMongoPS l pid f).map (fun p => p.id) =
      l.map (fun p => p.id) := by
  induction l with
  | nil => rfl
  | cons a t ih =>
    unfold updateFirstMongoPS
    by_cases h : (a.id == pid) = true
    · simp [h, hid a]
    · simp only [Bool.not_eq_true] at h
      simp [h, ih]

theorem find?_updateFirstMongoPS (l : List MongoPS) (pid : String)
    (f : MongoPS → MongoPS) (hid : ∀ x, (f x).id = x.id) :
    (updateFirstMongoPS l pid f).find? (fun p => p.id == pid) =
      (l.find? (fun p => p.id == pid)).map f := by
  induction l with
  | nil => rfl
  | cons a t ih =>
    unfold updateFirstMongoPS
    by_cases h : (a.id == pid) = true
    · rw [if_pos h]
      simp [List.find?_cons, hid a, h]
    · have h' : (a.id == pid) = false := by simpa using h
      rw [if_neg (by simp [h'])]
      simpa [List.find?_cons, h'] using ih

theorem mem_updateFirstMongoPS (l : List MongoPS) (pid : String)
    (f : MongoPS → MongoPS) (x : MongoPS)
    (hx : x ∈ updateFirstMongoPS l pid f) :
    x ∈ l ∨ ∃ p, p ∈ l ∧ x = f p := by
  induction l with
  | nil => cases hx
  | cons a t ih =>
    unfold updateFirstMongoPS at hx
    by_cases h : (a.id == pid) = true
    · rw [if_pos h] at hx
      rcases List.mem_cons.mp hx with h1 | h1
      · exact Or.inr ⟨a, List.mem_cons_self a t, h1⟩
      · exact Or.inl (List.mem_cons_of_mem _ h1)
    · rw [if_neg h] at hx
      rcases List.mem_cons.mp hx with h1 | h1
      · exact Or.inl (h1 ▸ List.mem_cons_self a t)
      · rcases ih h1 with h2 | ⟨p, hp, he⟩
        · exact Or.inl (List.mem_cons_of_mem _ h2)
        · exact Or.inr ⟨p, List.mem_cons_of_mem _ hp, he⟩

theorem mem_updateFirstFilePS (l : List FilePS) (pid : String)
    (f : FilePS → FilePS) (x : FilePS)
    (hx : x ∈ updateFirstFilePS l pid f) :
    x ∈ l ∨ ∃ p, p ∈ l ∧ x = f p := by
  induction l with
  | nil => cases hx
  | cons a t ih =>
    unfold updateFirstFilePS at hx
    by_cases h : (a.id == pid) = true
    · rw [if_pos h] at hx
      rcases List.mem_cons.mp hx with h1 | h1
      · exact Or.inr ⟨a, List.mem_cons_self a t, h1⟩
      · exact Or.inl (List.mem_cons_of_mem _ h1)
    · rw [if_neg h] at hx
      rcases List.mem_cons.mp hx with h1 | h1
      · exact Or.inl (h1 ▸ List.mem_cons_self a t)
      · rcases ih h1 with h2 | ⟨p, hp, he⟩
        · exact Or.inl (List.mem_cons_of_mem _ h2)
        · exact Or.inr ⟨p, List.mem_cons_of_mem _ hp, he⟩

theorem deleteFirstReg_none (l : List Reg) (t : String)
    (h : ∀ x ∈ l, (x.teamNumber == t) = false) :
    deleteFirstReg l t = (none, l) := by
  induction l with
  | nil => rfl
  | cons a rs ih =>
    unfold deleteFirstReg
    rw [if_neg (by simp [h a (List.mem_cons_self a rs)]),
      ih (fun x hx => h x (List.mem_cons_of_mem _ hx))]

theorem deleteFirstReg_spec (l : List Reg) (t : String) (x : Reg)
    (hnd : (l.map (fun r => r.teamNumber)).Nodup) (hx : x ∈ l)
    (hxt : x.teamNumber = t) :
    ∃ l1 l2, l = l1 ++ x :: l2 ∧ deleteFirstReg l t = (some x, l1 ++ l2) := by
  induction l with
  | nil => cases hx
  | cons a rs ih =>
    rw [List.map_cons, List.nodup_cons] at hnd
    by_cases h : (a.teamNumber == t) = true
    · have hax : a = x := by
        rcases List.mem_cons.mp hx with h1 | h1
        · exact h1.symm
        · exfalso
          apply hnd.1
          rw [show a.teamNumber = x.teamNumber from by
            rw [hxt]; exact beq_iff_eq.mp h]
          exact List.mem_map_of_mem _ h1
      refine ⟨[], rs, by simp [hax], ?_⟩
      unfold deleteFirstReg
      rw [if_pos h, hax]
      rfl
    · have hx' : x ∈ rs := by
        rcases List.mem_cons.mp hx with h1 | h1
        · exfalso; apply h; rw [← h1, hxt]; exact beq_self_eq_true t
        · exact h1
      rcases ih hnd.2 hx' with ⟨l1, l2, he, hd⟩
      refine ⟨a :: l1, l2, by rw [he]; rfl, ?_⟩
      unfold deleteFirstReg
      rw [if_neg h, hd]
      rfl

theorem deleteFirstReg_snd_sublist (l : List Reg) (t : String) :
    (deleteFirstReg l t).2.Sublist l := by
  induction l with
  | nil => exact List.Sublist.refl _
  | cons a rs ih =>
    unfold deleteFirstReg
    by_cases h : (a.teamNumber == t) = true
    · rw [if_pos h]
      exact List.sublist_cons_self a rs
    · rw [if_neg h]
      exact List.Sublist.cons₂ a ih

theorem filter_keep_of_trim_nodup (l : List Reg) (x : Reg)
    (hnd : (l.map (fun r => jsTrim r.teamNumber)).Nodup) (hx : x ∈ l) :
    ∃ l1 l2, l = l1 ++ x :: l2 ∧
      l.filter (fun r => !(jsTrim r.teamNumber == jsTrim x.teamNumber)) =
        l1 ++ l2 := by
  rcases List.append_of_mem hx with ⟨l1, l2, rfl⟩
  refine ⟨l1, l2, rfl, ?_⟩
  rw [List.map_append, List.map_cons, List.nodup_append] at hnd
  obtain ⟨hn1, hn2, hdisj⟩ := hnd
  rw [List.nodup_cons] at hn2
  have h1 : ∀ y ∈ l1, jsTrim y.teamNumber ≠ jsTrim x.teamNumber := by
    intro y hy he
    exact (hdisj (he ▸ List.mem_map_of_mem _ hy)) (List.mem_cons_self _ _)
  have h2 : ∀ y ∈ l2, jsTrim y.teamNumber ≠ jsTrim x.teamNumber := by
    intro y hy he
    exact hn2.1 (he ▸ List.mem_map_of_mem _ hy)
  rw [List.filter_append]
  rw [List.filter_eq_self.mpr (fun y hy => by simpa using h1 y hy)]
  rw [show (x :: l2).filter
      (fun r => !(jsTrim r.teamNumber == jsTrim x.teamNumber)) = l2 from by
    rw [List.filter_cons_of_neg (by simp)]
    exact List.filter_eq_self.mpr (fun y hy => by simpa using h2 y hy)]

theorem dedupeRegsAux_sublist (l : List Reg) :
    ∀ seen, (dedupeRegsAux seen l).Sublist l := by
  induction l with
  | nil => intro seen; exact List.Sublist.refl _
  | cons a rs ih =>
    intro seen
    unfold dedupeRegsAux
    by_cases h : (seen.contains a.teamNumber) = true
    · rw [if_pos h]
      exact (ih seen).trans (List.sublist_cons_self a rs)
    · rw [if_neg h]
      exact List.Sublist.cons₂ a (ih _)

theorem dedupeRegsAux_nodup (l : List Reg) :
    ∀ seen, ((dedupeRegsAux seen l).map (fun r => r.teamNumber)).Nodup ∧
      ∀ t ∈ (dedupeRegsAux seen l).map (fun r => r.teamNumber),
        seen.contains t = false := by
  induction l with
  | nil => intro seen; exact ⟨List.nodup_nil, by intro t ht; cases ht⟩
  | cons a rs ih =>
    intro seen
    unfold dedupeRegsAux
    by_cases h : (seen.contains a.teamNumber) = true
    · rw [if_pos h]
      exact ih seen
    · rw [if_neg h]
      obtain ⟨hnd, hmem⟩ := ih (a.teamNumber :: seen)
      have hne : a.teamNumber ∉
          (dedupeRegsAux (a.teamNumber :: seen) rs).map
            (fun r => r.teamNumber) := by
        intro hmm
        have := hmem _ hmm
        simp at this
      refine ⟨?_, ?_⟩
      · rw [List.map_cons, List.nodup_cons]
        exact ⟨hne, hnd⟩
      · intro t ht
        rw [List.map_cons] at ht
        rcases List.mem_cons.mp ht with h1 | h1
        · rw [h1]; simpa using h
        · have := hmem _ h1
          simp at this
          simpa using this.2

theorem dedupeRegsAux_find? (l : List Reg) (t : String) :
    ∀ seen, seen.contains t = false →
      (dedupeRegsAux seen l).find? (fun r => r.teamNumber == t) =
        l.find? (fun r => r.teamNumber == t) := by
  induction l with
  | nil => intro seen _; rfl
  | cons a rs ih =>
    intro seen hs
    unfold dedupeRegsAux
    by_cases h : (seen.contains a.teamNumber) = true
    · rw [if_pos h]
      have hne : (a.teamNumber == t) = false := by
        rw [beq_eq_false_iff_ne]
        intro he
        rw [he] at h
        rw [h] at hs
        cases hs
      rw [ih seen hs]
      simp [List.find?_cons, hne]
    · rw [if_neg h]
      by_cases hat : (a.teamNumber == t) = true
      · simp [List.find?_cons, hat]
      · have hat' : (a.teamNumber == t) = false := by simpa using hat
        simp only [List.find?_cons, hat']
        apply ih
        simp only [List.contains_cons, Bool.or_eq_false_iff]
        constructor
        · rw [beq_eq_false_iff_ne]
          intro he
          rw [← he] at hat'
          simp at hat'
        · exact hs

theorem updateFirst_id_max (l : List MongoPS) (pid : String)
    (f : MongoPS → MongoPS)
    (hf : ∀ x, (f x).id = x.id ∧ (f x).maxSelections = x.maxSelections) :
    ((updateFirstMongoPS l pid f).map (fun p => p.id) =
      l.map (fun p => p.id)) ∧
    ∀ x ∈ updateFirstMongoPS l pid f, ∃ p ∈ l,
      x.id = p.id ∧ x.maxSelections = p.maxSelections := by
  constructor
  · exact map_id_updateFirstMongoPS l pid f (fun x => (hf x).1)
  · intro x hx
    rcases mem_updateFirstMongoPS l pid f x hx with h | ⟨p, hp, he⟩
    · exact ⟨x, h, rfl, rfl⟩
    · exact ⟨p, hp, he ▸ (hf p).1, he ▸ (hf p).2⟩

theorem mongoCreate_dup (s : MongoData) (r : RegInput) (now : String)
    (ok : Bool)
    (h : (s.registrations.any
      (fun x => x.teamNumber == jsTrim r.teamNumber)) = true) :
    mongoCreateRegistrationAtomic s r now ok = (none, s) := by
  simp [mongoCreateRegistrationAtomic, h]

theorem fileCreate_dup (d : FileData) (r : RegInput) (now : String)
    (h : (d.registrations.any
      (fun x => jsTrim x.teamNumber == jsTrim r.teamNumber)) = true) :
    fileCreateCritical d r now = (none, d) := by
  simp [fileCreateCritical, h]

theorem mongoCreate_spec (s : MongoData) (r : RegInput) (now : String)
    (ok : Bool) :
    mongoCreateRegistrationAtomic s r now ok = (none, s) ∨
    mongoCreateRegistrationAtomic s r now ok =
      (none, mongoReconcile s r.problemStatementId) ∨
    ∃ problem l',
      s.problemStatements.find? (fun p => p.id == r.problemStatementId) =
        some problem ∧
      (s.registrations.any
        (fun x => x.teamNumber == jsTrim r.teamNumber)) = false ∧
      ((countRegsList s.registrations problem.id : ℚ) <
        jsMax 1 (parsedMaxOf (JVal.num problem.maxSelections))) ∧
      l'.map (fun p => p.id) = s.problemStatements.map (fun p => p.id) ∧
      (∀ x ∈ l', ∃ p ∈ s.problemStatements,
        x.id = p.id ∧ x.maxSelections = p.maxSelections) ∧
      ok = true ∧
      mongoCreateRegistrationAtomic s r now ok =
        (some { id := jsTrim r.teamNumber, changes := 1 },
         { problemStatements := l',
           registrations := s.registrations ++
             [{ teamNumber := jsTrim r.teamNumber, teamName := r.teamName,
                teamLeader := r.teamLeader,
                problemStatementId := r.problemStatementId,
                registrationDateTime := now }] }) := by
  by_cases h1 : (s.registrations.any
      (fun x => x.teamNumber == jsTrim r.teamNumber)) = true
  · exact Or.inl (mongoCreate_dup s r now ok h1)
  · have h1' : (s.registrations.any
        (fun x => x.teamNumber == jsTrim r.teamNumber)) = false := by
      simpa using h1
    cases hf : s.problemStatements.find?
        (fun p => p.id == r.problemStatementId) with
    | none =>
      left
      simp [mongoCreateRegistrationAtomic, h1', hf]
    | some problem =>
      have hpid : problem.id = r.problemStatementId := by
        have h2 := List.find?_some hf
        simpa using h2
      have hfind2 : s.problemStatements.find?
          (fun p => p.id == problem.id) = some problem := by
        rw [hpid]; exact hf
      by_cases hdrift : (problem.selectedCount.getD 0) =
          (((s.registrations.filter
            (fun x => x.problemStatementId == problem.id)).length : Nat) : Int)
      · -- no drift: the reconciliation write is skipped
        by_cases hgate : ((((s.registrations.filter
            (fun x => x.problemStatementId == problem.id)).length : Nat) : ℚ) <
            jsMax 1 (parsedMaxOf (JVal.num problem.maxSelections)))
        · cases ok with
          | false =>
            left
            simp [mongoCreateRegistrationAtomic, h1', hf, hdrift, hfind2, hgate]
          | true =>
            right; right
            refine ⟨problem,
              updateFirstMongoPS s.problemStatements problem.id
                (fun p => { p with selectedCount := some (p.selectedCount.getD 0 + 1) }),
              rfl, h1', by exact_mod_cast hgate, ?_, ?_, rfl, ?_⟩
            · exact (updateFirst_id_max s.problemStatements problem.id
                (fun p => { p with selectedCount := some (p.selectedCount.getD 0 + 1) })
                (fun x => ⟨rfl, rfl⟩)).1
            · exact (updateFirst_id_max s.problemStatements problem.id
                (fun p => { p with selectedCount := some (p.selectedCount.getD 0 + 1) })
                (fun x => ⟨rfl, rfl⟩)).2
            · simp [mongoCreateRegistrationAtomic, h1', hf, hdrift, hfind2,
                hgate]
        · left
          simp [mongoCreateRegistrationAtomic, h1', hf, hdrift, hfind2, hgate]
      · -- drift: the reconciliation write happens first
        have hfind3 : (updateFirstMongoPS s.problemStatements problem.id
            (fun p => { p with selectedCount := some (((s.registrations.filter (fun x => x.problemStatementId == problem.id)).length : Nat) : Int) })).find?
            (fun p => p.id == problem.id) =
            some { problem with selectedCount := some (((s.registrations.filter (fun x => x.problemStatementId == problem.id)).length : Nat) : Int) } := by
          rw [find?_updateFirstMongoPS s.problemStatements problem.id
            (fun p => { p with selectedCount := some (((s.registrations.filter (fun x => x.problemStatementId == problem.id)).length : Nat) : Int) })
            (fun x => rfl), hfind2]
          rfl
        by_cases hgate : ((((s.registrations.filter
            (fun x => x.problemStatementId == problem.id)).length : Nat) : ℚ) <
            jsMax 1 (parsedMaxOf (JVal.num problem.maxSelections)))
        · cases ok with
          | false =>
            left
            simp [mongoCreateRegistrationAtomic, h1', hf, hdrift, hfind3, hgate]
          | true =>
            right; right
            refine ⟨problem,
              updateFirstMongoPS
                (updateFirstMongoPS s.problemStatements problem.id
                  (fun p => { p with selectedCount := some (((s.registrations.filter (fun x => x.problemStatementId == problem.id)).length : Nat) : Int) }))
                problem.id
                (fun p => { p with selectedCount := some (p.selectedCount.getD 0 + 1) }),
              rfl, h1', by exact_mod_cast hgate, ?_, ?_, rfl, ?_⟩
            · rw [(updateFirst_id_max _ problem.id
                (fun p => { p with selectedCount := some (p.selectedCount.getD 0 + 1) })
                (fun x => ⟨rfl, rfl⟩)).1]
              exact (updateFirst_id_max s.problemStatements problem.id
                (fun p => { p with selectedCount := some (((s.registrations.filter (fun x => x.problemStatementId == problem.id)).length : Nat) : Int) })
                (fun x => ⟨rfl, rfl⟩)).1
            · intro x hx
              rcases (updateFirst_id_max _ problem.id
                  (fun p => { p with selectedCount := some (p.selectedCount.getD 0 + 1) })
                  (fun x => ⟨rfl, rfl⟩)).2 x hx with ⟨p1, hp1, hi1, hm1⟩
              rcases (updateFirst_id_max s.problemStatements problem.id
                  (fun p => { p with selectedCount := some (((s.registrations.filter (fun x => x.problemStatementId == problem.id)).length : Nat) : Int) })
                  (fun x => ⟨rfl, rfl⟩)).2 p1 hp1 with ⟨p0, hp0, hi0, hm0⟩
              exact ⟨p0, hp0, hi1.trans hi0, hm1.trans hm0⟩
            · simp [mongoCreateRegistrationAtomic, h1', hf, hdrift, hfind3,
                hgate]
        · right; left
          have hrec : mongoReconcile s r.problemStatementId =
              { s with problemStatements := (updateFirstMongoPS s.problemStatements problem.id (fun p => { p with selectedCount := some (((s.registrations.filter (fun x => x.problemStatementId == problem.id)).length : Nat) : Int) })) } := by
            rw [mongoReconcile, ← hpid]
            rfl
          rw [hrec]
          simp [mongoCreateRegistrationAtomic, h1', hf, hdrift, hfind3, hgate]

theorem fileCreate_spec (d : FileData) (r : RegInput) (now : String) :
    fileCreateCritical d r now = (none, d) ∨
    ∃ ps,
      d.problemStatements.find? (fun p => p.id == r.problemStatementId) =
        some ps ∧
      (d.registrations.any
        (fun x => jsTrim x.teamNumber == jsTrim r.teamNumber)) = false ∧
      ((countRegsList d.registrations ps.id : ℚ) < ps.maxSelections) ∧
      fileCreateCritical d r now =
        (some { id := jsTrim r.teamNumber, changes := 1 },
         { d with registrations := d.registrations ++
             [{ teamNumber := jsTrim r.teamNumber, teamName := r.teamName,
                teamLeader := r.teamLeader,
                problemStatementId := r.problemStatementId,
                registrationDateTime := now }] }) := by
  by_cases h1 : (d.registrations.any
      (fun x => jsTrim x.teamNumber == jsTrim r.teamNumber)) = true
  · exact Or.inl (fileCreate_dup d r now h1)
  · have h1' : (d.registrations.any
        (fun x => jsTrim x.teamNumber == jsTrim r.teamNumber)) = false := by
      simpa using h1
    cases hf : d.problemStatements.find?
        (fun p => p.id == r.problemStatementId) with
    | none =>
      left
      simp [fileCreateCritical, h1', hf]
    | some ps =>
      by_cases hcap : (ps.maxSelections ≤
          (((d.registrations.filter
            (fun x => x.problemStatementId == ps.id)).length : Nat) : ℚ))
      · left
        simp [fileCreateCritical, h1', hf, hcap]
      · right
        refine ⟨ps, rfl, h1', not_le.mp hcap, ?_⟩
        simp [fileCreateCritical, h1', hf, hcap]

theorem fileCreate_spec2 (d : FileData) (r : RegInput) (now : String) :
    fileCreateCritical d r now = (none, d) ∨
    ∃ ps record,
      d.problemStatements.find? (fun p => p.id == r.problemStatementId) =
        some ps ∧
      (d.registrations.any
        (fun x => jsTrim x.teamNumber == jsTrim r.teamNumber)) = false ∧
      ((countRegsList d.registrations ps.id : ℚ) < ps.maxSelections) ∧
      record.teamNumber = jsTrim r.teamNumber ∧
      record.problemStatementId = r.problemStatementId ∧
      fileCreateCritical d r now =
        (some { id := jsTrim r.teamNumber, changes := 1 },
         { d with registrations := d.registrations ++ [record] }) := by
  rcases fileCreate_spec d r now with hn | ⟨ps, hf, hany, hcap, he⟩
  · exact Or.inl hn
  · exact Or.inr ⟨ps, _, hf, hany, hcap, rfl, rfl, he⟩

theorem mongoCreate_spec2 (s : MongoData) (r : RegInput) (now : String)
    (ok : Bool) :
    mongoCreateRegistrationAtomic s r now ok = (none, s) ∨
    mongoCreateRegistrationAtomic s r now ok =
      (none, mongoReconcile s r.problemStatementId) ∨
    ∃ problem l' record,
      s.problemStatements.find? (fun p => p.id == r.problemStatementId) =
        some problem ∧
      (s.registrations.any
        (fun x => x.teamNumber == jsTrim r.teamNumber)) = false ∧
      ((countRegsList s.registrations problem.id : ℚ) <
        jsMax 1 (parsedMaxOf (JVal.num problem.maxSelections))) ∧
      l'.map (fun p => p.id) = s.problemStatements.map (fun p => p.id) ∧
      (∀ x ∈ l', ∃ p ∈ s.problemStatements,
        x.id = p.id ∧ x.maxSelections = p.maxSelections) ∧
      ok = true ∧
      record.teamNumber = jsTrim r.teamNumber ∧
      record.problemStatementId = r.problemStatementId ∧
      mongoCreateRegistrationAtomic s r now ok =
        (some { id := jsTrim r.teamNumber, changes := 1 },
         { problemStatements := l',
           registrations := s.registrations ++ [record] }) := by
  rcases mongoCreate_spec s r now ok with hn | hr | ⟨problem, l', hf, hany, hgate, hmap, hmem, hok, he⟩
  · exact Or.inl hn
  · exact Or.inr (Or.inl hr)
  · exact Or.inr (Or.inr ⟨problem, l', _, hf, hany, hgate, hmap, hmem, hok,
      rfl, rfl, he⟩)

theorem capFile_register (d : FileData) (r : RegInput) (now : String)
    (h : capFile d) : capFile (fileCreateCritical d r now).2 := by
  rcases fileCreate_spec2 d r now with hn |
    ⟨ps, record, hf, hany, hcap, hrtn, hrpid, he⟩
  · rw [hn]; exact h
  · rw [he]
    obtain ⟨hnd, hall⟩ := h
    have hpsmem : ps ∈ d.problemStatements := List.mem_of_find?_eq_some hf
    have hpsid : ps.id = r.problemStatementId := by
      have h2 := List.find?_some hf
      simpa using h2
    refine ⟨hnd, ?_⟩
    intro p hp
    obtain ⟨hNat, hle⟩ := hall p hp
    refine ⟨hNat, ?_⟩
    show (countRegsList (d.registrations ++ [record]) p.id : ℚ) ≤
      p.maxSelections
    rw [countRegsList_append_one]
    by_cases hpid : (record.problemStatementId == p.id) = true
    · rw [if_pos hpid]
      have hp2 : p = ps := by
        apply List.inj_on_of_nodup_map hnd hp hpsmem
        rw [hpsid, ← hrpid]
        exact (beq_iff_eq.mp hpid).symm
      rcases (isNatQ_iff _).mp hNat with ⟨N, hN⟩
      have hlt : countRegsList d.registrations p.id < N := by
        have h2 := hcap
        rw [← hp2] at h2
        rw [hN] at h2
        exact_mod_cast h2
      have h3 : countRegsList d.registrations p.id + 1 ≤ N := hlt
      rw [hN]
      exact_mod_cast h3
    · rw [if_neg hpid]
      simpa using hle

theorem capFile_delete (d : FileData) (t : String) (h : capFile d) :
    capFile (fileDeleteRegistration d t).2 := by
  obtain ⟨hnd, hall⟩ := h
  refine ⟨hnd, ?_⟩
  intro p hp
  obtain ⟨hNat, hle⟩ := hall p hp
  refine ⟨hNat, ?_⟩
  calc ((countRegsList (d.registrations.filter
        (fun r => !(jsTrim r.teamNumber == jsTrim t))) p.id : Nat) : ℚ) ≤
      ((countRegsList d.registrations p.id : Nat) : ℚ) := by
        exact_mod_cast countRegsList_sublist (List.filter_sublist _) p.id
    _ ≤ p.maxSelections := hle

theorem capFile_runOps (d : FileData) (ops : List Op) (h : capFile d) :
    capFile (runOpsFile d ops) := by
  induction ops generalizing d with
  | nil => exact h
  | cons op rest ih =>
    cases op with
    | register r now ok => exact ih _ (capFile_register d r now h)
    | delete t => exact ih _ (capFile_delete d t h)

theorem uniqFile_register (d : FileData) (r : RegInput) (now : String)
    (h : uniqFile d) : uniqFile (fileCreateCritical d r now).2 := by
  rcases fileCreate_spec2 d r now with hn |
    ⟨ps, record, hf, hany, hcap, hrtn, hrpid, he⟩
  · rw [hn]; exact h
  · rw [he]
    show (List.map (fun x => jsTrim x.teamNumber)
      (d.registrations ++ [record])).Nodup
    rw [List.map_append, List.map_cons, List.map_nil]
    apply List.Nodup.append h (List.nodup_singleton _)
    intro a ha hb
    rcases List.mem_singleton.mp hb with rfl
    rcases List.mem_map.mp ha with ⟨x, hx, hax⟩
    have h3 : ¬((fun x => jsTrim x.teamNumber == jsTrim r.teamNumber) x =
        true) := List.any_eq_false.mp hany x hx
    apply h3
    show (jsTrim x.teamNumber == jsTrim r.teamNumber) = true
    apply beq_iff_eq.mpr
    rw [hax, hrtn, jsTrim_idem]

theorem uniqFile_delete (d : FileData) (t : String) (h : uniqFile d) :
    uniqFile (fileDeleteRegistration d t).2 :=
  List.Nodup.sublist (List.Sublist.map _ (List.filter_sublist _)) h

theorem uniqFile_runOps (d : FileData) (ops : List Op) (h : uniqFile d) :
    uniqFile (runOpsFile d ops) := by
  induction ops generalizing d with
  | nil => exact h
  | cons op rest ih =>
    cases op with
    | register r now ok => exact ih _ (uniqFile_register d r now h)
    | delete t => exact ih _ (uniqFile_delete d t h)

theorem mongoReconcile_registrations (s : MongoData) (pid : String) :
    (mongoReconcile s pid).registrations = s.registrations := rfl

theorem mongoReconcile_id_max (s : MongoData) (pid : String) :
    ((mongoReconcile s pid).problemStatements.map (fun p => p.id) =
      s.problemStatements.map (fun p => p.id)) ∧
    ∀ x ∈ (mongoReconcile s pid).problemStatements,
      ∃ p ∈ s.problemStatements,
        x.id = p.id ∧ x.maxSelections = p.maxSelections :=
  updateFirst_id_max s.problemStatements pid _ (fun _ => ⟨rfl, rfl⟩)

theorem capMongo_register (s : MongoData) (r : RegInput) (now : String)
    (ok : Bool) (h : capMongo s) :
    capMongo (mongoCreateRegistrationAtomic s r now ok).2 := by
  rcases mongoCreate_spec2 s r now ok with hn | hr |
    ⟨problem, l', record, hf, hany, hgate, hmap, hmem, hok, hrtn, hrpid, he⟩
  · rw [hn]; exact h
  · rw [hr]
    obtain ⟨hnd, hall⟩ := h
    obtain ⟨hmap, hmem⟩ := mongoReconcile_id_max s r.problemStatementId
    refine ⟨by rw [hmap]; exact hnd, ?_⟩
    intro p hp
    obtain ⟨p0, hp0, hid, hmax⟩ := hmem p hp
    obtain ⟨hNat, h1, hle⟩ := hall p0 hp0
    refine ⟨hmax ▸ hNat, hmax ▸ h1, ?_⟩
    rw [hmax]
    show ((countRegsList (mongoReconcile s r.problemStatementId).registrations
      p.id : Nat) : ℚ) ≤ p0.maxSelections
    rw [mongoReconcile_registrations, hid]
    exact hle
  · rw [he]
    obtain ⟨hnd, hall⟩ := h
    have hpsmem : problem ∈ s.problemStatements :=
      List.mem_of_find?_eq_some hf
    have hpsid : problem.id = r.problemStatementId := by
      have h2 := List.find?_some hf
      simpa using h2
    refine ⟨by rw [hmap]; exact hnd, ?_⟩
    intro p hp
    obtain ⟨p0, hp0, hid, hmax⟩ := hmem p hp
    obtain ⟨hNat, h1, hle⟩ := hall p0 hp0
    refine ⟨hmax ▸ hNat, hmax ▸ h1, ?_⟩
    rw [hmax]
    show ((countRegsList (s.registrations ++ [record]) p.id : Nat) : ℚ) ≤
      p0.maxSelections
    rw [countRegsList_append_one]
    by_cases hpid : (record.problemStatementId == p.id) = true
    · rw [if_pos hpid]
      have hp2 : p0 = problem := by
        apply List.inj_on_of_nodup_map hnd hp0 hpsmem
        rw [← hid, hpsid, ← hrpid]
        exact (beq_iff_eq.mp hpid).symm
      rcases (isNatQ_iff _).mp hNat with ⟨N, hN⟩
      have hmax1 : jsMax 1 (parsedMaxOf (JVal.num problem.maxSelections)) =
          problem.maxSelections := by
        show jsMax 1 problem.maxSelections = problem.maxSelections
        apply jsMax_one_of_one_le
        rw [← hp2]; exact h1
      have hlt : countRegsList s.registrations p.id < N := by
        have h2 := hgate
        rw [hmax1, ← hp2] at h2
        rw [← hid] at h2
        rw [hN] at h2
        exact_mod_cast h2
      have h3 : countRegsList s.registrations p.id + 1 ≤ N := hlt
      rw [hN]
      exact_mod_cast h3
    · rw [if_neg hpid, hid]
      simpa using hle

theorem mongoDelete_state (s : MongoData) (t : String) :
    (mongoDeleteRegistration s t).2.registrations.Sublist s.registrations ∧
    ((mongoDeleteRegistration s t).2.problemStatements.map (fun p => p.id) =
      s.problemStatements.map (fun p => p.id)) ∧
    ∀ x ∈ (mongoDeleteRegistration s t).2.problemStatements,
      ∃ p ∈ s.problemStatements,
        x.id = p.id ∧ x.maxSelections = p.maxSelections := by
  have hsub := deleteFirstReg_snd_sublist s.registrations (jsTrim t)
  simp only [mongoDeleteRegistration]
  cases hd : deleteFirstReg s.registrations (jsTrim t) with
  | mk found rs =>
    rw [hd] at hsub
    cases found with
    | none =>
      exact ⟨List.Sublist.refl _, rfl, fun x hx => ⟨x, hx, rfl, rfl⟩⟩
    | some reg =>
      dsimp only
      by_cases hb : (reg.problemStatementId == "") = true
      · rw [if_pos hb]
        exact ⟨hsub, rfl, fun x hx => ⟨x, hx, rfl, rfl⟩⟩
      · rw [if_neg hb]
        refine ⟨hsub, ?_, ?_⟩
        · exact (updateFirst_id_max s.problemStatements reg.problemStatementId
            (fun p => { p with selectedCount := some (p.selectedCount.getD 0 + (-1)) })
            (fun x => ⟨rfl, rfl⟩)).1
        · exact (updateFirst_id_max s.problemStatements reg.problemStatementId
            (fun p => { p with selectedCount := some (p.selectedCount.getD 0 + (-1)) })
            (fun x => ⟨rfl, rfl⟩)).2

theorem capMongo_delete (s : MongoData) (t : String) (h : capMongo s) :
    capMongo (mongoDeleteRegistration s t).2 := by
  obtain ⟨hsub, hmap, hmem⟩ := mongoDelete_state s t
  obtain ⟨hnd, hall⟩ := h
  refine ⟨by rw [hmap]; exact hnd, ?_⟩
  intro p hp
  obtain ⟨p0, hp0, hid, hmax⟩ := hmem p hp
  obtain ⟨hNat, h1, hle⟩ := hall p0 hp0
  refine ⟨hmax ▸ hNat, hmax ▸ h1, ?_⟩
  rw [hmax, hid]
  calc ((countRegsList (mongoDeleteRegistration s t).2.registrations
        p0.id : Nat) : ℚ) ≤
      ((countRegsList s.registrations p0.id : Nat) : ℚ) := by
        exact_mod_cast countRegsList_sublist hsub p0.id
    _ ≤ p0.maxSelections := hle

theorem capMongo_runOps (s : MongoData) (ops : List Op) (h : capMongo s) :
    capMongo (runOpsMongo s ops) := by
  induction ops generalizing s with
  | nil => exact h
  | cons op rest ih =>
    cases op with
    | register r now ok => exact ih _ (capMongo_register s r now ok h)
    | delete t => exact ih _ (capMongo_delete s t h)

theorem uniqMongo_register (s : MongoData) (r : RegInput) (now : String)
    (ok : Bool) (h : uniqMongo s) :
    uniqMongo (mongoCreateRegistrationAtomic s r now ok).2 := by
  rcases mongoCreate_spec2 s r now ok with hn | hr |
    ⟨problem, l', record, hf, hany, hgate, hmap, hmem, hok, hrtn, hrpid, he⟩
  · rw [hn]; exact h
  · rw [hr]; exact h
  · rw [he]
    obtain ⟨hnd, htrim⟩ := h
    constructor
    · show (List.map (fun x => x.teamNumber)
        (s.registrations ++ [record])).Nodup
      rw [List.map_append, List.map_cons, List.map_nil]
      apply List.Nodup.append hnd (List.nodup_singleton _)
      intro a ha hb
      rcases List.mem_singleton.mp hb with rfl
      rcases List.mem_map.mp ha with ⟨x, hx, hax⟩
      have h3 : ¬((fun x => x.teamNumber == jsTrim r.teamNumber) x = true) :=
        List.any_eq_false.mp hany x hx
      apply h3
      apply beq_iff_eq.mpr
      rw [hax, hrtn]
    · intro x hx
      rcases List.mem_append.mp hx with h1 | h1
      · exact htrim x h1
      · rcases List.mem_singleton.mp h1 with rfl
        rw [hrtn, jsTrim_idem]

theorem uniqMongo_delete (s : MongoData) (t : String) (h : uniqMongo s) :
    uniqMongo (mongoDeleteRegistration s t).2 := by
  obtain ⟨hsub, _, _⟩ := mongoDelete_state s t
  obtain ⟨hnd, htrim⟩ := h
  exact ⟨List.Nodup.sublist (List.Sublist.map _ hsub) hnd,
    fun x hx => htrim x (hsub.subset hx)⟩

theorem uniqMongo_runOps (s : MongoData) (ops : List Op) (h : uniqMongo s) :
    uniqMongo (runOpsMongo s ops) := by
  induction ops generalizing s with
  | nil => exact h
  | cons op rest ih =>
    cases op with
    | register r now ok => exact ih _ (uniqMongo_register s r now ok h)
    | delete t => exact ih _ (uniqMongo_delete s t h)

theorem fileCreate_none_state (d : FileData) (r : RegInput) (now : String)
    (h : (fileCreateCritical d r now).1 = none) :
    (fileCreateCritical d r now).2 = d := by
  rcases fileCreate_spec d r now with hn | ⟨ps, hf, hany, hcap, he⟩
  · rw [hn]
  · rw [he] at h
    cases h

theorem createAttempts_all_busy (lockBusy : Nat → Bool)
    (bodyError : Nat → Option Nat) (r : RegInput) (now : String)
    (h : ∀ k, lockBusy k = true) :
    ∀ (n attempt : Nat) (d : FileData),
      createAttempts false lockBusy bodyError r now n attempt d =
        (LoopOutcome.lockExhausted, d,
         List.replicate n (FsEvent.waited retryDelay)) := by
  intro n
  induction n with
  | zero => intro attempt d; rfl
  | succ m ih =>
    intro attempt d
    show createAttempts false lockBusy bodyError r now (m + 1) attempt d = _
    rw [createAttempts]
    rw [if_pos (by simp [h attempt])]
    rw [ih (attempt + 1) d]
    rfl

theorem createAttempts_not_ok_state (useBlob : Bool) (lockBusy : Nat → Bool)
    (bodyError : Nat → Option Nat) (r : RegInput) (now : String) :
    ∀ (n attempt : Nat) (d : FileData),
      (∀ e, (createAttempts useBlob lockBusy bodyError r now n attempt d).1 ≠
        LoopOutcome.ok e) →
      (createAttempts useBlob lockBusy bodyError r now n attempt d).2.1 = d := by
  intro n
  induction n with
  | zero => intro attempt d _; rfl
  | succ m ih =>
    intro attempt d hne
    rw [createAttempts] at hne ⊢
    by_cases hb : (!useBlob && lockBusy attempt) = true
    · rw [if_pos hb] at hne ⊢
      exact ih (attempt + 1) d hne
    · rw [if_neg hb] at hne ⊢
      cases he : bodyError attempt with
      | some e =>
        rw [he] at hne
        dsimp only at hne ⊢
        by_cases hm : m = 0
        · rw [if_pos hm]
        · rw [if_neg hm] at hne ⊢
          exact ih (attempt + 1) d hne
      | none =>
        rw [he] at hne
        dsimp only at hne ⊢
        cases hc : fileCreateCritical d r now with
        | mk res d1 =>
          cases res with
          | some ok =>
            rw [hc] at hne
            dsimp only at hne
            exact absurd rfl (hne ok)
          | none =>
            have h2 := fileCreate_none_state d r now (by rw [hc])
            rw [hc] at h2
            dsimp only
            exact h2

theorem createAttempts_lock_balanced (lockBusy : Nat → Bool)
    (bodyError : Nat → Option Nat) (r : RegInput) (now : String) :
    ∀ (n attempt : Nat) (d : FileData),
      ∃ ns : List Nat,
        ((createAttempts false lockBusy bodyError r now n attempt d).2.2.filter
          isLockEvent) =
          ns.bind (fun k => [FsEvent.lockCreated k, FsEvent.lockRemoved k]) := by
  intro n
  induction n with
  | zero => intro attempt d; exact ⟨[], rfl⟩
  | succ m ih =>
    intro attempt d
    rw [createAttempts]
    by_cases hb : (!false && lockBusy attempt) = true
    · rw [if_pos hb]
      rcases ih (attempt + 1) d with ⟨ns, hns⟩
      exact ⟨ns, by simpa [isLockEvent] using hns⟩
    · rw [if_neg hb]
      cases he : bodyError attempt with
      | some e =>
        dsimp only
        by_cases hm : m = 0
        · rw [if_pos hm]
          exact ⟨[attempt], by simp [isLockEvent]⟩
        · rw [if_neg hm]
          rcases ih (attempt + 1) d with ⟨ns, hns⟩
          refine ⟨attempt :: ns, ?_⟩
          simpa [isLockEvent] using hns
      | none =>
        dsimp only
        cases hc : fileCreateCritical d r now with
        | mk res d1 =>
          cases res with
          | some ok => exact ⟨[attempt], by simp [isLockEvent]⟩
          | none => exact ⟨[attempt], by simp [isLockEvent]⟩

theorem createAttempts_blob_no_lock (lockBusy : Nat → Bool)
    (bodyError : Nat → Option Nat) (r : RegInput) (now : String) :
    ∀ (n attempt : Nat) (d : FileData),
      ((createAttempts true lockBusy bodyError r now n attempt d).2.2.filter
        isLockEvent) = [] := by
  intro n
  induction n with
  | zero => intro attempt d; rfl
  | succ m ih =>
    intro attempt d
    rw [createAttempts]
    rw [if_neg (by simp)]
    cases he : bodyError attempt with
    | some e =>
      dsimp only
      by_cases hm : m = 0
      · rw [if_pos hm]
        simp [isLockEvent]
      · rw [if_neg hm]
        simpa [isLockEvent] using ih (attempt + 1) d
    | none =>
      dsimp only
      cases hc : fileCreateCritical d r now with
      | mk res d1 =>
        cases res with
        | some ok => simp [isLockEvent]
        | none => simp [isLockEvent]

theorem createAttempts_blob_no_exhaust (lockBusy : Nat → Bool)
    (bodyError : Nat → Option Nat) (r : RegInput) (now : String) :
    ∀ (n attempt : Nat) (d : FileData), 1 ≤ n →
      (createAttempts true lockBusy bodyError r now n attempt d).1 ≠
        LoopOutcome.lockExhausted := by
  intro n
  induction n with
  | zero => intro attempt d h; cases h
  | succ m ih =>
    intro attempt d _
    rw [createAttempts]
    rw [if_neg (by simp)]
    cases he : bodyError attempt with
    | some e =>
      dsimp only
      by_cases hm : m = 0
      · rw [if_pos hm]
        intro h
        cases h
      · rw [if_neg hm]
        exact ih (attempt + 1) d (Nat.one_le_iff_ne_zero.mpr hm)
    | none =>
      dsimp only
      cases hc : fileCreateCritical d r now with
      | mk res d1 =>
        cases res with
        | some ok => intro h; cases h
        | none => intro h; cases h

theorem fileCreate_full (d : FileData) (r : RegInput) (now : String)
    (p : FilePS) (hnd : (d.problemStatements.map (fun q => q.id)).Nodup)
    (hp : p ∈ d.problemStatements) (hpid : r.problemStatementId = p.id)
    (hfull : p.maxSelections ≤ (countRegsFile d p.id : ℚ)) :
    fileCreateCritical d r now = (none, d) := by
  rcases fileCreate_spec d r now with hn | ⟨ps, hf, hany, hcap, he⟩
  · exact hn
  · exfalso
    have hfp : d.problemStatements.find?
        (fun q => q.id == r.problemStatementId) = some p := by
      rw [hpid]
      exact find?_key_eq_some (fun q => q.id) d.problemStatements p hnd hp
    rw [hfp] at hf
    injection hf with hf
    rw [← hf] at hcap
    exact absurd hcap (not_lt.mpr hfull)

theorem mongoCreate_full (s : MongoData) (r : RegInput) (now : String)
    (ok : Bool) (p : MongoPS) (h : capMongo s) (hp : p ∈ s.problemStatements)
    (hpid : r.problemStatementId = p.id)
    (hfull : (countRegsMongo s p.id : ℚ) = p.maxSelections) :
    (mongoCreateRegistrationAtomic s r now ok).1 = none := by
  rcases mongoCreate_spec s r now ok with hn | hr |
    ⟨problem, l', hf, hany, hgate, _, _, _, he⟩
  · rw [hn]
  · rw [hr]
  · exfalso
    obtain ⟨hnd, hall⟩ := h
    have hfp : s.problemStatements.find?
        (fun q => q.id == r.problemStatementId) = some p := by
      rw [hpid]
      exact find?_key_eq_some (fun q => q.id) s.problemStatements p hnd hp
    rw [hfp] at hf
    injection hf with hf
    obtain ⟨hNat, h1, hle⟩ := hall p hp
    have hmax1 : jsMax 1 (parsedMaxOf (JVal.num problem.maxSelections)) =
        p.maxSelections := by
      rw [← hf]
      exact jsMax_one_of_one_le _ h1
    rw [hmax1, ← hf] at hgate
    exact absurd hgate (not_lt.mpr (le_of_eq hfull.symm))

/-! ## Claim theorems -/

/-- C1 — Capacity invariant: starting from any store satisfying the data
model's invariants (distinct statement ids, natural-number `maxSelections`
— at least 1 on the Mongo side, as every catalog write guarantees — and no
oversubscription), after any sequence of `createRegistrationAtomic` /
`deleteRegistration` operations the number of registrations referencing a
statement with `maxSelections = N` is at most `N`; and when the count
equals `maxSelections`, a further `createRegistrationAtomic` against that
statement returns null in both backends (the File Backend also leaves the
document unchanged). -/
theorem claim_C1 :
    (∀ (d : FileData) (ops : List Op) (p : FilePS) (N : ℕ),
      capFile d → p ∈ (runOpsFile d ops).problemStatements →
      p.maxSelections = (N : ℚ) →
      countRegsFile (runOpsFile d ops) p.id ≤ N) ∧
    (∀ (d : FileData) (r : RegInput) (now : String) (p : FilePS),
      capFile d → p ∈ d.problemStatements →
      r.problemStatementId = p.id →
      (countRegsFile d p.id : ℚ) = p.maxSelections →
      fileCreateCritical d r now = (none, d)) ∧
    (∀ (s : MongoData) (ops : List Op) (p : MongoPS) (N : ℕ),
      capMongo s → p ∈ (runOpsMongo s ops).problemStatements →
      p.maxSelections = (N : ℚ) →
      countRegsMongo (runOpsMongo s ops) p.id ≤ N) ∧
    (∀ (s : MongoData) (r : RegInput) (now : String) (ok : Bool) (p : MongoPS),
      capMongo s → p ∈ s.problemStatements →
      r.problemStatementId = p.id →
      (countRegsMongo s p.id : ℚ) = p.maxSelections →
      (mongoCreateRegistrationAtomic s r now ok).1 = none) := by
  refine ⟨?_, ?_, ?_, ?_⟩
  · intro d ops p N h hp hN
    obtain ⟨_, hall⟩ := capFile_runOps d ops h
    obtain ⟨_, hle⟩ := hall p hp
    rw [hN] at hle
    exact_mod_cast hle
  · intro d r now p h hp hpid hfull
    exact fileCreate_full d r now p h.1 hp hpid (le_of_eq hfull.symm)
  · intro s ops p N h hp hN
    obtain ⟨_, hall⟩ := capMongo_runOps s ops h
    obtain ⟨_, _, hle⟩ := hall p hp
    rw [hN] at hle
    exact_mod_cast hle
  · intro s r now ok p h hp hpid hfull
    exact mongoCreate_full s r now ok p h hp hpid hfull

/-- Witness for C1 at the seeded catalog: two registrations fill ps001
(`maxSelections = 2`), and a third attempt is refused by both backends. -/
theorem claim_C1_witness :
    countRegsFile (runOpsFile seedFileData demoOps) defaultPs001.id ≤ 2 ∧
    fileCreateCritical fullFile inT3 "2024-01-03T00:00:00.000Z" =
      (none, fullFile) ∧
    countRegsMongo (runOpsMongo seedMongoData demoOps)
      ({ mongoPs001 with selectedCount := some 2 } : MongoPS).id ≤ 2 ∧
    (mongoCreateRegistrationAtomic fullMongo inT3 "2024-01-03T00:00:00.000Z"
      true).1 = none :=
  ⟨claim_C1.1 seedFileData demoOps defaultPs001 2 (by decide) (by decide)
      (by decide),
   claim_C1.2.1 fullFile inT3 "2024-01-03T00:00:00.000Z" defaultPs001
      (by decide) (by decide) (by decide) (by decide),
   claim_C1.2.2.1 seedMongoData demoOps
      { mongoPs001 with selectedCount := some 2 } 2 (by decide) (by decide)
      (by decide),
   claim_C1.2.2.2 fullMongo inT3 "2024-01-03T00:00:00.000Z" true mongoPs001
      (by decide) (by decide) (by decide) (by decide)⟩

/-- C2 — Uniqueness invariant: pairwise-distinct trimmed team numbers are
preserved by any sequence of register/delete operations in both backends,
and a `createRegistrationAtomic` whose trimmed team number matches a
stored registration returns null and leaves the store — in particular the
first registration — unchanged.  (The Mongo duplicate check compares the
trimmed target against the stored field verbatim, so its invariant also
records that stored team numbers are trimmed.) -/
theorem claim_C2 :
    (∀ (d : FileData) (ops : List Op),
      uniqFile d → uniqFile (runOpsFile d ops)) ∧
    (∀ (d : FileData) (r : RegInput) (now : String) (x : Reg),
      x ∈ d.registrations → jsTrim x.teamNumber = jsTrim r.teamNumber →
      fileCreateCritical d r now = (none, d)) ∧
    (∀ (s : MongoData) (ops : List Op),
      uniqMongo s → uniqMongo (runOpsMongo s ops)) ∧
    (∀ (s : MongoData) (r : RegInput) (now : String) (ok : Bool) (x : Reg),
      uniqMongo s → x ∈ s.registrations →
      jsTrim x.teamNumber = jsTrim r.teamNumber →
      mongoCreateRegistrationAtomic s r now ok = (none, s)) := by
  refine ⟨uniqFile_runOps, ?_, uniqMongo_runOps, ?_⟩
  · intro d r now x hx hxt
    apply fileCreate_dup
    apply List.any_eq_true.mpr
    exact ⟨x, hx, beq_iff_eq.mpr hxt⟩
  · intro s r now ok x h hx hxt
    apply mongoCreate_dup
    apply List.any_eq_true.mpr
    refine ⟨x, hx, beq_iff_eq.mpr ?_⟩
    rw [← hxt, h.2 x hx]

/-- Witness for C2: re-registering team T1 (submitted with surrounding
whitespace) is refused with a null result in both backends, and the
uniqueness invariant survives the demo operation sequence. -/
theorem claim_C2_witness :
    uniqFile (runOpsFile seedFileData demoOps) ∧
    fileCreateCritical fileWithT1
      { teamNumber := " T1 ", teamName := "Alpha2", teamLeader := "Other",
        problemStatementId := "ps002" } "2024-01-05T00:00:00.000Z" =
      (none, fileWithT1) ∧
    uniqMongo (runOpsMongo seedMongoData demoOps) ∧
    mongoCreateRegistrationAtomic mongoWithT1
      { teamNumber := " T1 ", teamName := "Alpha2", teamLeader := "Other",
        problemStatementId := "ps002" } "2024-01-05T00:00:00.000Z" true =
      (none, mongoWithT1) :=
  ⟨claim_C2.1 seedFileData demoOps (by decide),
   claim_C2.2.1 fileWithT1
     { teamNumber := " T1 ", teamName := "Alpha2", teamLeader := "Other",
       problemStatementId := "ps002" } "2024-01-05T00:00:00.000Z" regT1
     (by decide) (by decide),
   claim_C2.2.2.1 seedMongoData demoOps (by decide),
   claim_C2.2.2.2 mongoWithT1
     { teamNumber := " T1 ", teamName := "Alpha2", teamLeader := "Other",
       problemStatementId := "ps002" } "2024-01-05T00:00:00.000Z" true regT1
     (by decide) (by decide) (by decide)⟩

/-- C3 counterexample: with a drifted cache (`selectedCount = 5` while
only two registrations exist) a "full" failure commits the reconciliation
write, so the persisted Mongo state after the failed call differs from the
state before it — the claim's "state equivalent to before" is false as
stated. -/
theorem claim_C3_counterexample :
    (mongoCreateRegistrationAtomic driftMongo inT3 "2024-01-03T00:00:00.000Z"
      true).1 = none ∧
    (mongoCreateRegistrationAtomic driftMongo inT3 "2024-01-03T00:00:00.000Z"
      true).2 ≠ driftMongo := ⟨by decide, by decide⟩

/-- C3 (amended) — No double effect, up to Mongo cache reconciliation: a
failed `createRegistrationAtomic` adds no registration in either backend;
the File Backend's document is bit-for-bit unchanged on every non-success
outcome of the whole lock-retry loop; the Mongo backend's state is either
unchanged or — only on the capacity-failure path — equal to the input
state with the target statement's cached `selectedCount` reconciled to the
actual registration count. -/
theorem claim_C3_amended :
    (∀ (d : FileData) (r : RegInput) (now : String),
      (fileCreateCritical d r now).1 = none →
      (fileCreateCritical d r now).2 = d) ∧
    (∀ (useBlob : Bool) (lockBusy : Nat → Bool) (bodyError : Nat → Option Nat)
      (d : FileData) (r : RegInput) (now : String),
      (∀ e, (createRegistrationAtomicFile useBlob lockBusy bodyError d r
        now).1 ≠ LoopOutcome.ok e) →
      (createRegistrationAtomicFile useBlob lockBusy bodyError d r
        now).2.1 = d) ∧
    (∀ (s : MongoData) (r : RegInput) (now : String) (ok : Bool),
      (mongoCreateRegistrationAtomic s r now ok).1 = none →
      (mongoCreateRegistrationAtomic s r now ok).2.registrations =
        s.registrations ∧
      ((mongoCreateRegistrationAtomic s r now ok).2 = s ∨
       (mongoCreateRegistrationAtomic s r now ok).2 =
         mongoReconcile s r.problemStatementId)) := by
  refine ⟨?_, ?_, ?_⟩
  · exact fileCreate_none_state
  · intro useBlob lockBusy bodyError d r now hne
    exact createAttempts_not_ok_state useBlob lockBusy bodyError r now
      maxRetries 0 d hne
  · intro s r now ok h
    rcases mongoCreate_spec s r now ok with hn | hr |
      ⟨problem, l', hf, hany, hgate, hmap, hmem, hok, he⟩
    · rw [hn]
      exact ⟨rfl, Or.inl rfl⟩
    · rw [hr]
      exact ⟨mongoReconcile_registrations s r.problemStatementId,
        Or.inr rfl⟩
    · rw [he] at h
      cases h

/-- Witness for C3 (amended): a duplicate-team failure in the Mongo
backend and a capacity failure in the File Backend both leave their
store's state unchanged, and a loop run that exhausts its lock retries
leaves the document untouched. -/
theorem claim_C3_amended_witness :
    (fileCreateCritical fullFile inT3 "2024-01-03T00:00:00.000Z").2 =
      fullFile ∧
    (createRegistrationAtomicFile false (fun _ => true) (fun _ => none)
      seedFileData inT1 "2024-01-01T00:00:00.000Z").2.1 = seedFileData ∧
    ((mongoCreateRegistrationAtomic mongoWithT1 inT1
      "2024-01-05T00:00:00.000Z" true).2.registrations =
        mongoWithT1.registrations ∧
     ((mongoCreateRegistrationAtomic mongoWithT1 inT1
       "2024-01-05T00:00:00.000Z" true).2 = mongoWithT1 ∨
      (mongoCreateRegistrationAtomic mongoWithT1 inT1
        "2024-01-05T00:00:00.000Z" true).2 =
        mongoReconcile mongoWithT1 inT1.problemStatementId)) :=
  ⟨claim_C3_amended.1 fullFile inT3 "2024-01-03T00:00:00.000Z" (by decide),
   claim_C3_amended.2.1 false (fun _ => true) (fun _ => none) seedFileData
     inT1 "2024-01-01T00:00:00.000Z"
     (by
       intro e h
       rw [show (createRegistrationAtomicFile false (fun _ => true)
         (fun _ => none) seedFileData inT1 "2024-01-01T00:00:00.000Z").1 =
           LoopOutcome.lockExhausted from by decide] at h
       cases h),
   claim_C3_amended.2.2 mongoWithT1 inT1 "2024-01-05T00:00:00.000Z" true
     (by decide)⟩

/-- C4 — `resetAll` postcondition, evaluated on both backends: the File
Backend does restore the three-entry default catalog (`ps001..ps003`, each
`maxSelections = 2`) with zero registrations, but the Mongo backend's
`resetAll` leaves *zero* problem statements for every possible connection
state, because the re-seeding `init()` call returns immediately once
`this.db` is set — the call that `resetAll` itself makes sets it.  This
refutes the claim for the Mongo backend. -/
theorem claim_C4_eval :
    (∀ d : FileData, fileResetAll d =
      { problemStatements := defaultProblemStatements,
        registrations := [] }) ∧
    defaultProblemStatements.map (fun p => p.id) =
      ["ps001", "ps002", "ps003"] ∧
    defaultProblemStatements.map (fun p => p.maxSelections) = [2, 2, 2] ∧
    mongoDefaultProblemStatements.map (fun p => p.id) =
      ["ps001", "ps002", "ps003"] ∧
    mongoDefaultProblemStatements.map (fun p => p.maxSelections) =
      [2, 2, 2] ∧
    (∀ c : MongoConn, (mongoResetAll c).st.problemStatements = [] ∧
      (mongoResetAll c).st.registrations = []) := by
  refine ⟨fun d => rfl, by decide, by decide, by decide, by decide, ?_⟩
  intro c
  by_cases h : c.dbSet = true
  · simp [mongoResetAll, mongoInit, h]
  · simp [mongoResetAll, mongoInit, h]

/-- C5 — Bounded lock acquisition in the File Backend: the loop constants
are 10 attempts and a 50 ms delay, and when the lock-marker creation fails
with `EEXIST` on every attempt, `createRegistrationAtomic` performs
exactly ten 50 ms waits, leaves the document unchanged, and terminates by
raising the fatal could-not-acquire-lock error instead of hanging. -/
theorem claim_C5 :
    maxRetries = 10 ∧ retryDelay = 50 ∧
    ∀ (lockBusy : Nat → Bool) (bodyError : Nat → Option Nat)
      (d : FileData) (r : RegInput) (now : String),
      (∀ n, lockBusy n = true) →
      createRegistrationAtomicFile false lockBusy bodyError d r now =
        (LoopOutcome.lockExhausted, d,
         List.replicate maxRetries (FsEvent.waited retryDelay)) := by
  refine ⟨rfl, rfl, ?_⟩
  intro lockBusy bodyError d r now h
  exact createAttempts_all_busy lockBusy bodyError r now h maxRetries 0 d

/-- Witness for C5: a concrete run against a permanently held lock ends in
the lock-exhausted error after ten 50 ms waits. -/
theorem claim_C5_witness :
    createRegistrationAtomicFile false (fun _ => true) (fun _ => none)
      seedFileData inT1 "2024-01-01T00:00:00.000Z" =
      (LoopOutcome.lockExhausted, seedFileData,
       List.replicate 10 (FsEvent.waited 50)) :=
  claim_C5.2.2 (fun _ => true) (fun _ => none) seedFileData inT1
    "2024-01-01T00:00:00.000Z" (fun _ => rfl)

/-- C6 — `deleteRegistration` postcondition: with no matching registration
both backends return 0 rows affected (no error is possible: the operation
is a total function of the store); when a registration matches and the
uniqueness invariant holds, exactly one row is removed, the owning
statement's derived registration count drops by exactly one, and every
other statement's count is unchanged. -/
theorem claim_C6 :
    (∀ (d : FileData) (t : String),
      (∀ x ∈ d.registrations, jsTrim x.teamNumber ≠ jsTrim t) →
      fileDeleteRegistration d t = (0, d)) ∧
    (∀ (d : FileData) (t : String) (x : Reg),
      uniqFile d → x ∈ d.registrations → jsTrim x.teamNumber = jsTrim t →
      (fileDeleteRegistration d t).1 = 1 ∧
      countRegsFile (fileDeleteRegistration d t).2 x.problemStatementId + 1 =
        countRegsFile d x.problemStatementId ∧
      ∀ pid, pid ≠ x.problemStatementId →
        countRegsFile (fileDeleteRegistration d t).2 pid =
          countRegsFile d pid) ∧
    (∀ (s : MongoData) (t : String),
      (∀ x ∈ s.registrations, x.teamNumber ≠ jsTrim t) →
      mongoDeleteRegistration s t = (0, s)) ∧
    (∀ (s : MongoData) (t : String) (x : Reg),
      uniqMongo s → x ∈ s.registrations → x.teamNumber = jsTrim t →
      (mongoDeleteRegistration s t).1 = 1 ∧
      countRegsMongo (mongoDeleteRegistration s t).2 x.problemStatementId +
          1 = countRegsMongo s x.problemStatementId ∧
      ∀ pid, pid ≠ x.problemStatementId →
        countRegsMongo (mongoDeleteRegistration s t).2 pid =
          countRegsMongo s pid) := by
  refine ⟨?_, ?_, ?_, ?_⟩
  · intro d t h
    have hrem : d.registrations.filter
        (fun r => !(jsTrim r.teamNumber == jsTrim t)) = d.registrations :=
      List.filter_eq_self.mpr (fun y hy => by simpa using h y hy)
    simp [fileDeleteRegistration, hrem]
  · intro d t x huniq hx hxt
    have hsplit := filter_keep_of_trim_nodup d.registrations x huniq hx
    rcases hsplit with ⟨l1, l2, hdecomp, hfilter⟩
    rw [hxt] at hfilter
    have hregs : (fileDeleteRegistration d t).2.registrations = l1 ++ l2 := by
      simp [fileDeleteRegistration, hfilter]
    have hchanges : (fileDeleteRegistration d t).1 = 1 := by
      show d.registrations.length - (d.registrations.filter
        (fun r => !(jsTrim r.teamNumber == jsTrim t))).length = 1
      rw [hfilter, hdecomp]
      simp
      omega
    refine ⟨hchanges, ?_, ?_⟩
    · show countRegsList (fileDeleteRegistration d t).2.registrations
        x.problemStatementId + 1 = countRegsList d.registrations
          x.problemStatementId
      rw [hregs, hdecomp, countRegsList_middle]
      rw [if_pos (beq_self_eq_true _)]
    · intro pid hpid
      show countRegsList (fileDeleteRegistration d t).2.registrations pid =
        countRegsList d.registrations pid
      rw [hregs, hdecomp, countRegsList_middle]
      rw [if_neg (by simpa using fun he => hpid he.symm)]
      omega
  · intro s t h
    have hdel : deleteFirstReg s.registrations (jsTrim t) =
        (none, s.registrations) :=
      deleteFirstReg_none _ _ (fun x hx => by simpa using h x hx)
    simp [mongoDeleteRegistration, hdel]
  · intro s t x huniq hx hxt
    obtain ⟨hnd, _⟩ := huniq
    rcases deleteFirstReg_spec s.registrations (jsTrim t) x hnd hx hxt with
      ⟨l1, l2, hdecomp, hdel⟩
    have hregs : (mongoDeleteRegistration s t).2.registrations = l1 ++ l2 := by
      simp only [mongoDeleteRegistration, hdel]
      by_cases hb : (x.problemStatementId == "") = true
      · rw [if_pos hb]
      · rw [if_neg hb]
        rfl
    have hchanges : (mongoDeleteRegistration s t).1 = 1 := by
      simp only [mongoDeleteRegistration, hdel]
      by_cases hb : (x.problemStatementId == "") = true
      · rw [if_pos hb]
      · rw [if_neg hb]
    refine ⟨hchanges, ?_, ?_⟩
    · show countRegsList (mongoDeleteRegistration s t).2.registrations
        x.problemStatementId + 1 = countRegsList s.registrations
          x.problemStatementId
      rw [hregs, hdecomp, countRegsList_middle]
      rw [if_pos (beq_self_eq_true _)]
    · intro pid hpid
      show countRegsList (mongoDeleteRegistration s t).2.registrations pid =
        countRegsList s.registrations pid
      rw [hregs, hdecomp, countRegsList_middle]
      rw [if_neg (by simpa using fun he => hpid he.symm)]
      omega

/-- Witness for C6: deleting team T1 (submitted with whitespace) removes
exactly one row in each backend and drops ps001's derived count from 1 to
0, leaving ps002 untouched; an unknown team yields 0 rows affected. -/
theorem claim_C6_witness :
    fileDeleteRegistration seedFileData "T9" = (0, seedFileData) ∧
    (fileDeleteRegistration fileWithT1 " T1 ").1 = 1 ∧
    countRegsFile (fileDeleteRegistration fileWithT1 " T1 ").2
        regT1.problemStatementId + 1 =
      countRegsFile fileWithT1 regT1.problemStatementId ∧
    countRegsFile (fileDeleteRegistration fileWithT1 " T1 ").2 "ps002" =
      countRegsFile fileWithT1 "ps002" ∧
    mongoDeleteRegistration seedMongoData "T9" = (0, seedMongoData) ∧
    (mongoDeleteRegistration mongoWithT1 " T1 ").1 = 1 ∧
    countRegsMongo (mongoDeleteRegistration mongoWithT1 " T1 ").2
        regT1.problemStatementId + 1 =
      countRegsMongo mongoWithT1 regT1.problemStatementId :=
  ⟨claim_C6.1 seedFileData "T9" (by decide),
   (claim_C6.2.1 fileWithT1 " T1 " regT1 (by decide) (by decide)
     (by decide)).1,
   (claim_C6.2.1 fileWithT1 " T1 " regT1 (by decide) (by decide)
     (by decide)).2.1,
   (claim_C6.2.1 fileWithT1 " T1 " regT1 (by decide) (by decide)
     (by decide)).2.2 "ps002" (by decide),
   claim_C6.2.2.1 seedMongoData "T9" (by decide),
   (claim_C6.2.2.2 mongoWithT1 " T1 " regT1 (by decide) (by decide)
     (by decide)).1,
   (claim_C6.2.2.2 mongoWithT1 " T1 " regT1 (by decide) (by decide)
     (by decide)).2.1⟩

/-- C7 — Lock always released: over every oracle for lock contention and
critical-section exceptions, the lock-marker events of a non-blob
`createRegistrationAtomic` call form a sequence of immediately matched
create/remove pairs — each acquisition is released within the same attempt
(before the call returns, rethrows, or retries), and the call never
terminates holding the lock. -/
theorem claim_C7 :
    ∀ (lockBusy : Nat → Bool) (bodyError : Nat → Option Nat) (d : FileData)
      (r : RegInput) (now : String),
      ∃ ns : List Nat,
        ((createRegistrationAtomicFile false lockBusy bodyError d r
          now).2.2.filter isLockEvent) =
          ns.bind (fun n => [FsEvent.lockCreated n, FsEvent.lockRemoved n]) :=
  fun lockBusy bodyError d r now =>
    createAttempts_lock_balanced lockBusy bodyError r now maxRetries 0 d

/-- C10 — Lockless blob mode: with `useBlob` set, `createRegistrationAtomic`
performs no lock-marker creation or removal at all, the
lock-acquisition-exhausted failure is unreachable, and an error-free call
is exactly the unguarded critical section (checks plus document write)
applied to the current state. -/
theorem claim_C10 :
    (∀ (lockBusy : Nat → Bool) (bodyError : Nat → Option Nat) (d : FileData)
      (r : RegInput) (now : String),
      ((createRegistrationAtomicFile true lockBusy bodyError d r
        now).2.2.filter isLockEvent) = []) ∧
    (∀ (lockBusy : Nat → Bool) (bodyError : Nat → Option Nat) (d : FileData)
      (r : RegInput) (now : String),
      (createRegistrationAtomicFile true lockBusy bodyError d r now).1 ≠
        LoopOutcome.lockExhausted) ∧
    (∀ (lockBusy : Nat → Bool) (bodyError : Nat → Option Nat) (d : FileData)
      (r : RegInput) (now : String),
      bodyError 0 = none →
      createRegistrationAtomicFile true lockBusy bodyError d r now =
        (match fileCreateCritical d r now with
         | (some res, d1) => (LoopOutcome.ok res, d1, ([] : List FsEvent))
         | (none, d1) =>
            (LoopOutcome.nullResult, d1, ([] : List FsEvent)))) := by
  refine ⟨?_, ?_, ?_⟩
  · intro lockBusy bodyError d r now
    exact createAttempts_blob_no_lock lockBusy bodyError r now maxRetries 0 d
  · intro lockBusy bodyError d r now
    exact createAttempts_blob_no_exhaust lockBusy bodyError r now maxRetries
      0 d (by decide)
  · intro lockBusy bodyError d r now hbe
    show createAttempts true lockBusy bodyError r now maxRetries 0 d = _
    rw [show maxRetries = 9 + 1 from rfl, createAttempts]
    rw [if_neg (by simp)]
    rw [hbe]
    dsimp only
    cases hc : fileCreateCritical d r now with
    | mk res d1 =>
      cases res with
      | some ok => rfl
      | none => rfl

/-- Witness for C10: an error-free blob-mode call against the seeded
store behaves as the bare critical section. -/
theorem claim_C10_witness :
    createRegistrationAtomicFile true (fun _ => true) (fun _ => none)
      seedFileData inT1 "2024-01-01T00:00:00.000Z" =
      (match fileCreateCritical seedFileData inT1
        "2024-01-01T00:00:00.000Z" with
       | (some res, d1) => (LoopOutcome.ok res, d1, ([] : List FsEvent))
       | (none, d1) => (LoopOutcome.nullResult, d1, ([] : List FsEvent))) :=
  claim_C10.2.2 (fun _ => true) (fun _ => none) seedFileData inT1
    "2024-01-01T00:00:00.000Z" rfl

/-- C8 counterexample: two conflicting documents share team number T1; the
initial read throws a duplicate-key error, the deduplication keeps the
first document and deletes the second, and the retried read *also* fails —
the handler then answers a successful empty list, not the claimed
administrator-actionable error. -/
theorem claim_C8_counterexample :
    apiRegistrations (fun x => x) dupMongo (some { isDupKey := true }) true
      none false =
      (ApiResp.ok [],
       { problemStatements := [], registrations := [regT1] }) ∧
    ApiResp.ok [] ≠ ApiResp.err500 true := ⟨by decide, by decide⟩

/-- C8 (amended) — Duplicate-key self-healing on read: on a duplicate-key
error `getAllRegistrations` groups by `teamNumber`, keeps each group's
first document, deletes the rest, and retries once; but when the retry
also fails the store swallows the error and returns an empty list, so the
request succeeds with no rows, and the handler's distinct
administrator-actionable 500 is unreachable (the store never rethrows a
duplicate-key error). -/
theorem claim_C8_amended :
    (∀ (fmt : String → String) (s : MongoData) (e : JsError),
      e.isDupKey = true →
      mongoGetAllRegistrations fmt s (some e) false =
        (StoreRead.rows (joinRows fmt (mongoDedupState s)),
         mongoDedupState s)) ∧
    (∀ (fmt : String → String) (s : MongoData) (e : JsError),
      e.isDupKey = true →
      mongoGetAllRegistrations fmt s (some e) true =
        (StoreRead.rows [], mongoDedupState s)) ∧
    (∀ (fmt : String → String) (s : MongoData) (e1 : Option JsError)
      (f1 : Bool) (e2 : Option JsError) (f2 : Bool),
      (apiRegistrations fmt s e1 f1 e2 f2).1 ≠ ApiResp.err500 true) ∧
    (∀ l : List Reg,
      ((dedupeRegs l).map (fun r => r.teamNumber)).Nodup ∧
      (dedupeRegs l).Sublist l ∧
      ∀ t, (dedupeRegs l).find? (fun r => r.teamNumber == t) =
        l.find? (fun r => r.teamNumber == t)) := by
  refine ⟨?_, ?_, ?_, ?_⟩
  · intro fmt s e he
    simp [mongoGetAllRegistrations, he]
  · intro fmt s e he
    simp [mongoGetAllRegistrations, he]
  · intro fmt s e1 f1 e2 f2
    cases e1 with
    | none =>
      simp [apiRegistrations, mongoGetAllRegistrations]
    | some e =>
      by_cases he : e.isDupKey = true
      · by_cases hf : f1 = true
        · simp [apiRegistrations, mongoGetAllRegistrations, he, hf]
        · simp [apiRegistrations, mongoGetAllRegistrations, he,
            eq_false_of_ne_true hf]
      · have he' : e.isDupKey = false := eq_false_of_ne_true he
        simp [apiRegistrations, mongoGetAllRegistrations, he']
  · intro l
    exact ⟨(dedupeRegsAux_nodup l []).1, dedupeRegsAux_sublist l [],
      fun t => dedupeRegsAux_find? l t [] rfl⟩

/-- Witness for C8 (amended): the concrete corrupted store is self-healed
(first T1 document kept) and the failed retry is swallowed into an empty
row list. -/
theorem claim_C8_amended_witness :
    mongoGetAllRegistrations (fun x => x) dupMongo
      (some { isDupKey := true }) true =
      (StoreRead.rows [], mongoDedupState dupMongo) ∧
    mongoGetAllRegistrations (fun x => x) dupMongo
      (some { isDupKey := true }) false =
      (StoreRead.rows (joinRows (fun x => x) (mongoDedupState dupMongo)),
       mongoDedupState dupMongo) :=
  ⟨claim_C8_amended.2.1 (fun x => x) dupMongo { isDupKey := true } rfl,
   claim_C8_amended.1 (fun x => x) dupMongo { isDupKey := true } rfl⟩

/-- C9 counterexample: the JSON number 2.5 passes `typeof === 'number'`
unchanged, so `Math.max(1, 2.5) = 2.5` is stored by
`createProblemStatement` and returned by `getAllProblemStatements` — a
stored/returned `maxSelections` that is not an integer, refuting the
claim as stated. -/
theorem claim_C9_counterexample :
    coerceMax (JVal.num fractionalMax) = fractionalMax ∧
    ¬ isNatQ fractionalMax ∧
    ((fileCreateProblemStatement
      { problemStatements := [], registrations := [] }
      fractionalInput).2.problemStatements.map (fun p => p.maxSelections)) =
      [fractionalMax] ∧
    ((fileGetAllProblemStatements (fileCreateProblemStatement
      { problemStatements := [], registrations := [] }
      fractionalInput).2).map (fun v => v.max_selections)) =
      [fractionalMax] ∧
    ((mongoCreateProblemStatement
      { problemStatements := [], registrations := [] }
      fractionalInput).2.problemStatements.map (fun p => p.maxSelections)) =
      [fractionalMax] :=
  ⟨by decide, by decide, by decide, by decide, by decide⟩

/-- C9 (amended) — `maxSelections` floor: every coerced value is at least
1; string, missing/null, and integer numeric inputs coerce to integers,
and inputs parsing to 0 or below (including non-numeric strings) coerce to
exactly 1; every catalog write in both backends stores coerced values, so
the ≥ 1 floor is preserved by `createProblemStatement`,
`updateProblemStatement`, `importFromJSON` and `replaceFromJSON`, and
every `max_selections` returned by `getAllProblemStatements` is at least
1 — but a positive non-integral number such as 2.5 is stored as-is, so
"is an integer" holds only for those input classes. -/
theorem claim_C9_amended :
    (∀ v, 1 ≤ coerceMax v) ∧
    (∀ v, parsedMaxOf v ≤ 0 → coerceMax v = 1) ∧
    (∀ s : String, isNatQ (coerceMax (JVal.str s))) ∧
    isNatQ (coerceMax JVal.missing) ∧
    (∀ q : ℚ, isNatQ q → isNatQ (coerceMax (JVal.num q))) ∧
    (∀ d p, psFloorFile d → psFloorFile (fileCreateProblemStatement d p).2) ∧
    (∀ d id u, psFloorFile d →
      psFloorFile (fileUpdateProblemStatement d id u).2) ∧
    (∀ d j, psFloorFile d → psFloorFile (fileImportFromJSON d j)) ∧
    (∀ d j, psFloorFile d → psFloorFile (fileReplaceFromJSON d j).2) ∧
    (∀ d, ∀ v ∈ fileGetAllProblemStatements d, 1 ≤ v.max_selections) ∧
    (∀ s p, psFloorMongo s →
      psFloorMongo (mongoCreateProblemStatement s p).2) ∧
    (∀ s id u, psFloorMongo s →
      psFloorMongo (mongoUpdateProblemStatement s id u).2) ∧
    (∀ s j, psFloorMongo s → psFloorMongo (mongoImportFromJSON s j)) ∧
    (∀ s j, psFloorMongo s → psFloorMongo (mongoReplaceFromJSON s j).2) ∧
    (∀ s, ∀ v ∈ mongoGetAllProblemStatements s, 1 ≤ v.max_selections) := by
  refine ⟨one_le_coerceMax, coerceMax_of_nonpos, isNatQ_coerceMax_str,
    by decide, isNatQ_coerceMax_num, ?_, ?_, ?_, ?_, ?_, ?_, ?_, ?_, ?_, ?_⟩
  · intro d p h
    unfold fileCreateProblemStatement
    by_cases ha : (d.problemStatements.any (fun q => q.id == p.id)) = true
    · rw [if_pos ha]; exact h
    · rw [if_neg ha]
      intro q hq
      rcases List.mem_append.mp hq with h1 | h1
      · exact h q h1
      · rcases List.mem_singleton.mp h1 with rfl
        exact one_le_coerceMax p.maxSelections
  · intro d id u h
    unfold fileUpdateProblemStatement
    by_cases ha : (d.problemStatements.any (fun q => q.id == id)) = true
    · rw [if_pos ha]
      intro q hq
      rcases mem_updateFirstFilePS d.problemStatements id (applyUpdates u) q
        hq with h1 | ⟨p0, hp0, he⟩
      · exact h q h1
      · rw [he]
        have h0 := h p0 hp0
        rcases u with ⟨t, de, ms1, ms2, c, df, te⟩
        cases t <;> cases de <;> cases ms1 <;> cases ms2 <;> cases c <;>
          cases df <;> cases te <;>
          simp [applyUpdates, one_le_coerceMax, h0]
    · rw [if_neg ha]; exact h
  · intro d j h
    cases j with
    | none => exact h
    | some items =>
      intro q hq
      rcases List.mem_append.mp hq with h1 | h1
      · exact h q h1
      · rcases List.mem_map.mp h1 with ⟨p0, _, he⟩
        rw [← he]
        exact one_le_coerceMax p0.maxSelections
  · intro d j h
    cases j with
    | none => exact h
    | some items =>
      intro q hq
      rcases List.mem_map.mp hq with ⟨p0, _, he⟩
      rw [← he]
      exact one_le_coerceMax p0.maxSelections
  · intro d v hv
    rcases List.mem_map.mp hv with ⟨p0, _, he⟩
    rw [← he]
    exact one_le_jsMax_one _
  · intro s p h
    unfold mongoCreateProblemStatement
    by_cases ha : (s.problemStatements.any (fun q => q.id == p.id)) = true
    · rw [if_pos ha]; exact h
    · rw [if_neg ha]
      intro q hq
      rcases List.mem_append.mp hq with h1 | h1
      · exact h q h1
      · rcases List.mem_singleton.mp h1 with rfl
        exact one_le_coerceMax p.maxSelections
  · intro s id u h
    unfold mongoUpdateProblemStatement
    by_cases ha : (s.problemStatements.any (fun q => q.id == id)) = true
    · rw [if_pos ha]
      intro q hq
      rcases mem_updateFirstMongoPS s.problemStatements id _ q hq with
        h1 | ⟨p0, hp0, he⟩
      · exact h q h1
      · rw [he]
        have h0 := h p0 hp0
        by_cases hm : (u.max_selections.isSome || u.maxSelections.isSome) =
            true
        · simp only [hm, if_true]
          exact one_le_coerceMax _
        · simp only [hm, Bool.false_eq_true, if_false]
          rcases u with ⟨t, de, ms1, ms2, c, df, te⟩
          cases t <;> cases de <;> cases c <;> cases df <;> cases te <;>
            simpa using h0
    · rw [if_neg ha]; exact h
  · intro s j h
    cases j with
    | none => exact h
    | some items =>
      intro q hq
      rcases List.mem_append.mp hq with h1 | h1
      · exact h q h1
      · rcases List.mem_map.mp h1 with ⟨p0, _, he⟩
        rw [← he]
        exact one_le_coerceMax p0.maxSelections
  · intro s j h
    cases j with
    | none => exact h
    | some items =>
      intro q hq
      rcases List.mem_map.mp hq with ⟨p0, _, he⟩
      rw [← he]
      exact one_le_coerceMax p0.maxSelections
  · intro s v hv
    rcases List.mem_map.mp hv with ⟨p0, _, he⟩
    rw [← he]
    exact one_le_jsMax_one _

/-- Witness for C9 (amended): the fractional input 2.5 still satisfies the
≥ 1 floor through every path, a non-numeric string coerces to exactly 1,
and an integral number stays an integer. -/
theorem claim_C9_amended_witness :
    coerceMax (JVal.str "not a number") = 1 ∧
    isNatQ (coerceMax (JVal.num 7)) ∧
    psFloorFile (fileCreateProblemStatement
      { problemStatements := [], registrations := [] } fractionalInput).2 ∧
    psFloorMongo (mongoCreateProblemStatement
      { problemStatements := [], registrations := [] } fractionalInput).2 :=
  ⟨claim_C9_amended.2.1 (JVal.str "not a number") (by decide),
   claim_C9_amended.2.2.2.2.1 7 (by decide),
   claim_C9_amended.2.2.2.2.2.1
     { problemStatements := [], registrations := [] } fractionalInput
     (by decide),
   claim_C9_amended.2.2.2.2.2.2.2.2.2.2.1
     { problemStatements := [], registrations := [] } fractionalInput
     (by decide)⟩

end Digicon
